import Mathlib

/-!
Verification of the DocumentDB_perf schema-migration and benchmarking tools.

The Python sources under src/ are shallowly embedded below:
* string helpers model the Python `str.split`, `str.rsplit`, `in` and
  `json.dumps` operations used by the code;
* `scriptLines` / `generate_apply_script` transcribe
  `schema_migration/apply_schema.py:generate_apply_script`;
* `runApplyScript` gives the execution semantics of the generated mongosh
  script (its try/catch blocks driven by a failure oracle);
* `mask_password` transcribes `schema_migration/extract_schema.py:mask_password`;
* the executor and exit-code models transcribe the control flow of the
  subprocess invocations and `main` functions of each tool.
-/

namespace DocDB

/-! ## String helpers (Python `split`, `rsplit`, `in`, prefix tests) -/

/-- Boolean prefix test on character lists. -/
def isPrefixB (needle hay : List Char) : Bool :=
  match needle, hay with
  | [], _ => true
  | c :: cs, d :: ds => c = d && isPrefixB cs ds
  | _ :: _, [] => false

/-- Boolean substring test on character lists (Python `in` for strings). -/
def isInfixB (needle : List Char) : List Char → Bool
  | [] => isPrefixB needle []
  | c :: rest => isPrefixB needle (c :: rest) || isInfixB needle rest

/-- `containsSubstr s sub` models Python `sub in s`. -/
def containsSubstr (s sub : String) : Bool := isInfixB sub.data s.data

/-- `startsWithB l p` is true when `p` is a prefix of `l`. -/
def startsWithB (l p : String) : Bool := isPrefixB p.data l.data

/-- Helper used by the split functions: prepend a character to the first chunk. -/
def consHead (c : Char) : List (List Char) → List (List Char)
  | [] => [[c]]
  | h :: t => (c :: h) :: t

/-- Python `s.split(sep)` for a one-character separator, on character lists. -/
def splitChar (sep : Char) : List Char → List (List Char)
  | [] => [[]]
  | c :: rest =>
    if c = sep then [] :: splitChar sep rest
    else consHead c (splitChar sep rest)

/-- Python `s.split(sep)` for a two-character separator such as `"//"`. -/
def splitStr2 (a b : Char) : List Char → List (List Char)
  | [] => [[]]
  | [c] => [[c]]
  | c :: d :: rest =>
    if c = a ∧ d = b then [] :: splitStr2 a b rest
    else consHead c (splitStr2 a b (d :: rest))

/-- Python `s.rsplit(sep, 1)` for a one-character separator. -/
def rsplit1 (sep : Char) (s : List Char) : List (List Char) :=
  let r := s.reverse
  let post := r.takeWhile (fun c => !(c = sep))
  if post.length = r.length then [s]
  else [(r.drop (post.length + 1)).reverse, post.reverse]

/-! ## Schema data model (persisted schema JSON consumed by apply_schema.py) -/

/-- A value of an index-key or shard-key specification: a numeric direction
such as `1` or `-1`, or a special type such as `"text"`. -/
inductive KeyVal where
  | num (n : Int)
  | str (s : String)
deriving DecidableEq

/-- An ordered key specification (`keys` / `shard_key` objects in the JSON). -/
abbrev KeySpec := List (String × KeyVal)

/-- One entry of a collection's `indexes` array in the schema JSON. -/
structure IndexSchema where
  name : String
  keys : KeySpec
  unique : Bool
  sparse : Bool
  background : Bool
  expireAfterSeconds : Option Int
deriving DecidableEq

/-- One entry of a database's `collections` array in the schema JSON.
The floating-point size statistics (`size_gb`, `avg_doc_size`) are not read
by the script generator and are omitted. -/
structure CollectionSchema where
  name : String
  doc_count : Nat
  indexes : List IndexSchema
  is_sharded : Bool
  shard_key : Option KeySpec
deriving DecidableEq

/-- One entry of the top-level `databases` array in the schema JSON. -/
structure DatabaseSchema where
  database : String
  collections : List CollectionSchema
deriving DecidableEq

/-- The persisted schema document (`schema.json`). -/
structure SchemaSnapshot where
  databases : List DatabaseSchema
deriving DecidableEq

/-! ## `json.dumps` model for key specifications -/

/-- JSON string escaping of one character (quote and backslash; the schema
name/key strings of interest contain no control characters). -/
def jsonEscapeChar (c : Char) : List Char :=
  if c = '"' then ['\\', '"'] else if c = '\\' then ['\\', '\\'] else [c]

/-- JSON string escaping as performed by `json.dumps` on a string. -/
def jsonEscape (s : String) : String := ⟨s.data.flatMap jsonEscapeChar⟩

/-- Rendering of one key value as by `json.dumps`. -/
def jsonVal : KeyVal → String
  | .num n => toString n
  | .str s => "\"" ++ (jsonEscape s ++ "\"")

/-- `json.dumps` of a key-specification object, with the default separators
`", "` and `": "` used by `apply_schema.py`. -/
def jsonDumps (ks : KeySpec) : String :=
  "\x7b" ++ (String.intercalate ", "
    (ks.map fun kv => "\"" ++ (jsonEscape kv.1 ++ ("\": " ++ jsonVal kv.2))) ++ "\x7d")

/-- `json.dumps(coll['shard_key'])`: `None` serializes as `null`. -/
def shardKeyJson (coll : CollectionSchema) : String :=
  match coll.shard_key with
  | some ks => jsonDumps ks
  | none => "null"

/-! ## Script generator: `apply_schema.py:generate_apply_script`

Each `def` below transcribes one `script_lines.extend([...])` block of the
Python source; `scriptLines` assembles them exactly as the function does.
All `\x7b` / `\x7d` escapes denote literal brace characters of the generated
mongosh text. -/

/-- The 60-character `=` separator row used throughout the generated script
(built programmatically; its value is sixty equals signs). -/
def eqRow : String := String.mk (List.replicate 60 '=')

/-- The generated `print` statement for a separator row. -/
def sepPrint : String := "print('" ++ (eqRow ++ "');")

/-- `f"{db_prefix}{db_name}" if db_prefix else db_name` (apply_schema.py:74). -/
def targetName (dbPfx name : String) : String :=
  if dbPfx = "" then name else dbPfx ++ name

/-- The fixed script preamble (apply_schema.py:56-70). -/
def headerLines (n : Nat) (dbPfx : String) : List String :=
  ["// Auto-generated schema creation script",
   "// Apply complete MongoDB schema to destination",
   "",
   sepPrint,
   "print('Applying Schema to Destination MongoDB');",
   sepPrint,
   "print('Total Databases: " ++ (toString n ++ "');"),
   "print('Database Prefix: " ++ ((if dbPfx = "" then "None" else dbPfx) ++ "');"),
   sepPrint,
   "print('');",
   "",
   "var results = \x7b databases: 0, collections: 0, indexes: 0, errors: [] \x7d;",
   ""]

/-- Per-database header block (apply_schema.py:76-81). -/
def dbHeaderLines (t : String) : List String :=
  ["// Database: " ++ t,
   "print('\\n📁 Database: " ++ (t ++ "');"),
   "var targetDb = db.getSiblingDB('" ++ (t ++ "');"),
   ""]

/-- The database-level enableSharding command statement (apply_schema.py:91). -/
def enableCmd (t : String) : String :=
  "    adminDb.runCommand(\x7b enableSharding: '" ++ (t ++ "' \x7d);")

/-- Enable-sharding block, emitted when any collection is sharded
(apply_schema.py:86-98). -/
def enableShardingLines (t : String) : List String :=
  ["// Enable sharding on database",
   "try \x7b",
   "    var adminDb = db.getSiblingDB('admin');",
   enableCmd t,
   "    print('   ✅ Sharding enabled on database');",
   "\x7d catch(e) \x7b",
   "    // May already be enabled or not supported",
   "    print('   ⚠️  Could not enable sharding: ' + e.message);",
   "\x7d",
   ""]

/-- Fault-isolated create+shard block for a sharded collection
(apply_schema.py:110-125). -/
def shardedCollLines (t c skj : String) : List String :=
  ["// Shard collection with key: " ++ skj,
   "try \x7b",
   "    targetDb.createCollection('" ++ (c ++ "');"),
   "    var adminDb = db.getSiblingDB('admin');",
   "    adminDb.runCommand(\x7b shardCollection: '" ++ (t ++ ("." ++ (c ++ ("', key: " ++ (skj ++ " \x7d);"))))),
   "    print('      ✅ Collection created and sharded');",
   "    results.collections++;",
   "\x7d catch(e) \x7b",
   "    print('      ❌ Error: ' + e.message);",
   "    results.errors.push(\x7b db: '" ++ (t ++ ("', collection: '" ++ (c ++ "', error: e.message \x7d);"))),
   "\x7d",
   ""]

/-- Fault-isolated create block for an unsharded collection
(apply_schema.py:126-137). -/
def unshardedCollLines (t c : String) : List String :=
  ["try \x7b",
   "    targetDb.createCollection('" ++ (c ++ "');"),
   "    print('      ✅ Collection created');",
   "    results.collections++;",
   "\x7d catch(e) \x7b",
   "    print('      ❌ Error: ' + e.message);",
   "    results.errors.push(\x7b db: '" ++ (t ++ ("', collection: '" ++ (c ++ "', error: e.message \x7d);"))),
   "\x7d",
   ""]

/-- Conditionally built index option list (apply_schema.py:152-160). -/
def indexOptions (idx : IndexSchema) : List String :=
  ["name: '" ++ (idx.name ++ "'")]
  ++ (if idx.unique then ["unique: true"] else [])
  ++ (if idx.sparse then ["sparse: true"] else [])
  ++ (if idx.background then ["background: true"] else [])
  ++ (match idx.expireAfterSeconds with
      | some n => ["expireAfterSeconds: " ++ toString n]
      | none => [])

/-- `", ".join(options)` (apply_schema.py:162). -/
def optionsStr (idx : IndexSchema) : String :=
  String.intercalate ", " (indexOptions idx)

/-- The raw create-index statement line of the generated script
(apply_schema.py:166). -/
def createIndexLine (c : String) (idx : IndexSchema) : String :=
  "       targetDb." ++ (c ++ (".createIndex(" ++ (jsonDumps idx.keys ++ (", \x7b " ++ (optionsStr idx ++ " \x7d);")))))

/-- Fault-isolated create-index block for one index (apply_schema.py:164-174). -/
def indexBlockLines (t c : String) (idx : IndexSchema) : List String :=
  ["   try \x7b",
   createIndexLine c idx,
   "       print('      ✅ Index: " ++ (idx.name ++ "');"),
   "       results.indexes++;",
   "   \x7d catch(e) \x7b",
   "       print('      ❌ Index " ++ (idx.name ++ " failed: ' + e.message);"),
   "       results.errors.push(\x7b db: '" ++ (t ++ ("', collection: '" ++ (c ++ ("', index: '" ++ (idx.name ++ "', error: e.message \x7d);"))))),
   "   \x7d",
   ""]

/-- The `for idx in coll['indexes']` loop, skipping the `_id_` index
(apply_schema.py:143-174). -/
def indexLoop (t c : String) : List IndexSchema → List String
  | [] => []
  | idx :: rest =>
    (if idx.name = "_id_" then [] else indexBlockLines t c idx) ++ indexLoop t c rest

/-- The `if coll.get('indexes'):` section (apply_schema.py:140-176). -/
def indexSection (t : String) (coll : CollectionSchema) : List String :=
  if coll.indexes.isEmpty then []
  else ("   // Creating " ++ (toString coll.indexes.length ++ " indexes"))
       :: indexLoop t coll.name coll.indexes ++ [""]

/-- All lines emitted for one collection (apply_schema.py:100-176). -/
def collLines (t : String) (coll : CollectionSchema) : List String :=
  ["// Collection: " ++ coll.name,
   "print('   📄 Creating collection: " ++ (coll.name ++ "');"),
   ""]
  ++ (if coll.is_sharded then shardedCollLines t coll.name (shardKeyJson coll)
      else unshardedCollLines t coll.name)
  ++ indexSection t coll

/-- The `for coll in db_info['collections']` loop. -/
def collLoop (t : String) : List CollectionSchema → List String
  | [] => []
  | c :: rest => collLines t c ++ collLoop t rest

/-- All lines emitted for one database (apply_schema.py:72-181). -/
def dbLines (dbPfx : String) (db : DatabaseSchema) : List String :=
  dbHeaderLines (targetName dbPfx db.database)
  ++ (if db.collections.any (fun c => c.is_sharded)
      then enableShardingLines (targetName dbPfx db.database) else [])
  ++ collLoop (targetName dbPfx db.database) db.collections
  ++ ["results.databases++;", ""]

/-- The `for db_info in databases` loop. -/
def dbLoop (dbPfx : String) : List DatabaseSchema → List String
  | [] => []
  | db :: rest => dbLines dbPfx db ++ dbLoop dbPfx rest

/-- The fixed summary trailer of the generated script (apply_schema.py:183-201).
Note the `Errors:` print is guarded by `if (results.errors.length > 0)`. -/
def footerLines : List String :=
  ["print('');",
   sepPrint,
   "print('Schema Application Complete');",
   sepPrint,
   "print('Databases Created: ' + results.databases);",
   "print('Collections Created: ' + results.collections);",
   "print('Indexes Created: ' + results.indexes);",
   "if (results.errors.length > 0) \x7b",
   "    print('Errors: ' + results.errors.length);",
   "    print('');",
   "    print('Error Details:');",
   "    results.errors.forEach(function(err) \x7b",
   "        print('  - ' + JSON.stringify(err));",
   "    \x7d);",
   "\x7d",
   sepPrint,
   ""]

/-- The full `script_lines` list built by `generate_apply_script`. -/
def scriptLines (schema : SchemaSnapshot) (dbPfx : String) : List String :=
  headerLines schema.databases.length dbPfx
  ++ dbLoop dbPfx schema.databases
  ++ footerLines

/-- `generate_apply_script` returns `"\n".join(script_lines)`. -/
def generate_apply_script (schema : SchemaSnapshot) (dbPfx : String) : String :=
  String.intercalate "\n" (scriptLines schema dbPfx)

/-! ## Execution semantics of the generated script

`runApplyScript` evaluates the mongosh script text produced by
`generate_apply_script` on a destination server: every generated `try` block
either succeeds or throws, which is modelled by a `FailOracle` giving, per
execution site (database position, collection position, index position),
`none` for success or `some message` for a thrown `e.message`.  The printed
output (one list entry per executed `print(...)` call) and the `results`
counters are computed exactly as the generated statements dictate. -/

/-- One entry of the generated script's `results.errors` array. -/
structure ErrRec where
  db : String
  collection : String
  index : Option String
  error : String
deriving DecidableEq

/-- `JSON.stringify(err)` for an error record, preserving key insertion
order of the pushed object literal. -/
def errJson (e : ErrRec) : String :=
  match e.index with
  | none =>
    "\x7b\"db\":\"" ++ (jsonEscape e.db ++ ("\",\"collection\":\"" ++ (jsonEscape e.collection
      ++ ("\",\"error\":\"" ++ (jsonEscape e.error ++ "\"\x7d")))))
  | some i =>
    "\x7b\"db\":\"" ++ (jsonEscape e.db ++ ("\",\"collection\":\"" ++ (jsonEscape e.collection
      ++ ("\",\"index\":\"" ++ (jsonEscape i
      ++ ("\",\"error\":\"" ++ (jsonEscape e.error ++ "\"\x7d")))))))

/-- The `var results = { databases: 0, collections: 0, indexes: 0, errors: [] }`
state of the generated script. -/
structure ApplyState where
  databases : Nat
  collections : Nat
  indexes : Nat
  errors : List ErrRec
deriving DecidableEq

/-- Failure oracle: which generated `try` blocks throw, by execution site. -/
structure FailOracle where
  enable : Nat → Option String
  coll : Nat → Nat → Option String
  index : Nat → Nat → Nat → Option String

/-- Run one create-index block (generated by apply_schema.py:164-174). -/
def runIndex (o : FailOracle) (di ci ii : Nat) (t c : String) (idx : IndexSchema)
    (st : ApplyState) : List String × ApplyState :=
  match o.index di ci ii with
  | none =>
    (["      ✅ Index: " ++ idx.name],
     { st with indexes := st.indexes + 1 })
  | some m =>
    (["      ❌ Index " ++ (idx.name ++ (" failed: " ++ m))],
     { st with errors := st.errors ++ [ErrRec.mk t c (some idx.name) m] })

/-- Run the index blocks of one collection; `_id_` never has a block. -/
def runIdxLoop (o : FailOracle) (di ci : Nat) (t c : String) (ii : Nat)
    (st : ApplyState) : List IndexSchema → List String × ApplyState
  | [] => ([], st)
  | idx :: rest =>
    if idx.name = "_id_" then runIdxLoop o di ci t c (ii + 1) st rest
    else
      let r1 := runIndex o di ci ii t c idx st
      let r2 := runIdxLoop o di ci t c (ii + 1) r1.2 rest
      (r1.1 ++ r2.1, r2.2)

/-- Run the statements generated for one collection
(apply_schema.py:100-176): the announcement print, the fault-isolated
create(/shard) block, then the index blocks. -/
def runColl (o : FailOracle) (di ci : Nat) (t : String) (coll : CollectionSchema)
    (st : ApplyState) : List String × ApplyState :=
  let created :=
    match o.coll di ci with
    | none =>
      ((if coll.is_sharded then ["      ✅ Collection created and sharded"]
        else ["      ✅ Collection created"]),
       { st with collections := st.collections + 1 })
    | some m =>
      (["      ❌ Error: " ++ m],
       { st with errors := st.errors ++ [ErrRec.mk t coll.name none m] })
  let idxs := runIdxLoop o di ci t coll.name 0 created.2 coll.indexes
  (("   📄 Creating collection: " ++ coll.name) :: created.1 ++ idxs.1, idxs.2)

/-- Run the collection loop of one database. -/
def runCollLoop (o : FailOracle) (di : Nat) (t : String) (ci : Nat)
    (st : ApplyState) : List CollectionSchema → List String × ApplyState
  | [] => ([], st)
  | c :: rest =>
    let r1 := runColl o di ci t c st
    let r2 := runCollLoop o di t (ci + 1) r1.2 rest
    (r1.1 ++ r2.1, r2.2)

/-- Run the statements generated for one database: header print, optional
enable-sharding block (whose failure is only printed, never recorded as an
error), the collections, then the unconditional `results.databases++`. -/
def runDb (o : FailOracle) (dbPfx : String) (di : Nat) (db : DatabaseSchema)
    (st : ApplyState) : List String × ApplyState :=
  let t := targetName dbPfx db.database
  let pe : List String :=
    if db.collections.any (fun c => c.is_sharded) then
      match o.enable di with
      | none => ["   ✅ Sharding enabled on database"]
      | some m => ["   ⚠️  Could not enable sharding: " ++ m]
    else []
  let rc := runCollLoop o di t 0 st db.collections
  (("\n📁 Database: " ++ t) :: pe ++ rc.1,
   { rc.2 with databases := rc.2.databases + 1 })

/-- Run the database loop. -/
def runDbLoop (o : FailOracle) (dbPfx : String) (di : Nat)
    (st : ApplyState) : List DatabaseSchema → List String × ApplyState
  | [] => ([], st)
  | db :: rest =>
    let r1 := runDb o dbPfx di db st
    let r2 := runDbLoop o dbPfx (di + 1) r1.2 rest
    (r1.1 ++ r2.1, r2.2)

/-- The separator line printed by the generated script. -/
def sepLine : String := eqRow

/-- Output of the generated preamble prints (apply_schema.py:60-66). -/
def runHeader (n : Nat) (dbPfx : String) : List String :=
  [sepLine,
   "Applying Schema to Destination MongoDB",
   sepLine,
   "Total Databases: " ++ toString n,
   "Database Prefix: " ++ (if dbPfx = "" then "None" else dbPfx),
   sepLine,
   ""]

/-- Output of the generated summary prints (apply_schema.py:184-199): the
three `Created` counters are printed unconditionally, the `Errors:` line and
the per-error records only when `results.errors.length > 0`. -/
def runFooter (st : ApplyState) : List String :=
  ["",
   sepLine,
   "Schema Application Complete",
   sepLine,
   "Databases Created: " ++ toString st.databases,
   "Collections Created: " ++ toString st.collections,
   "Indexes Created: " ++ toString st.indexes]
  ++ (if st.errors.length > 0 then
        ("Errors: " ++ toString st.errors.length) :: "" :: "Error Details:"
          :: st.errors.map (fun e => "  - " ++ errJson e)
      else [])
  ++ [sepLine]

/-- Full run of the script produced by `generate_apply_script`:
printed output and final `results` state. -/
def runApplyScript (schema : SchemaSnapshot) (dbPfx : String)
    (o : FailOracle) : List String × ApplyState :=
  let body := runDbLoop o dbPfx 0 (ApplyState.mk 0 0 0 []) schema.databases
  (runHeader schema.databases.length dbPfx ++ body.1 ++ runFooter body.2, body.2)

/-! ## Command-executor temp-file discipline (C1)

Each executor writes the script body to a `tempfile.NamedTemporaryFile`
(`delete=False`), invokes the external client, and may or may not remove
the file.  `RunOutcome` is the outcome of the `subprocess.run` call:
the client process ran to completion with some exit code, the wall-clock
timeout fired (`subprocess.TimeoutExpired`), or another exception was
raised.  Each model returns whether `os.unlink` on the temp file was
reached, exactly following the `try`/`except`/`finally` structure of the
source. -/

/-- Outcome of one `subprocess.run` invocation of the external client. -/
inductive RunOutcome where
  | completed (exitCode : Int) (stdout stderr : String)
  | timedOut
  | raised (msg : String)
deriving DecidableEq

/-- `apply_schema.py:apply_schema` (lines 206-241): `os.unlink` is executed
only after `subprocess.run` returns; `except TimeoutExpired` and
`except Exception` print and return `False` without removing the file.
Result: (temp file removed?, boolean return value). -/
def apply_schema_run (o : RunOutcome) : Bool × Bool :=
  match o with
  | .completed rc _ _ => (true, rc = 0)
  | .timedOut => (false, false)
  | .raised _ => (false, false)

/-- `extract_schema.py:extract_schema` (lines 210-332): `os.unlink` (wrapped
in `try/except: pass`) runs only after `subprocess.run` returns; the
`TimeoutExpired`, `FileNotFoundError` and generic handlers `sys.exit(1)`
without removing the file.  Result: temp file removed? -/
def extract_schema_cleanup (o : RunOutcome) : Bool :=
  match o with
  | .completed _ _ _ => true
  | .timedOut => false
  | .raised _ => false

/-- Per-unit runner of `03_create_mongodb_indexes.py:create_indexes`
(lines 44-86): the `finally` clause unlinks the script file on every path,
and `except Exception` (which also catches `TimeoutExpired`) records ERROR.
Result: (temp file removed?, recorded status). -/
def create_index_unit (o : RunOutcome) : Bool × String :=
  match o with
  | .completed rc _ _ => (true, if rc = 0 then "SUCCESS" else "ERROR")
  | .timedOut => (true, "ERROR")
  | .raised _ => (true, "ERROR")

/-- Per-unit runner of `04_run_mongodb_queries.py:execute_queries`
(lines 85-134): same `finally`-based cleanup as the index runner. -/
def run_query_unit (o : RunOutcome) : Bool × String :=
  match o with
  | .completed rc _ _ => (true, if rc = 0 then "SUCCESS" else "ERROR")
  | .timedOut => (true, "ERROR")
  | .raised _ => (true, "ERROR")

/-- `05_generate_explain_output.py:get_explain` (lines 77-99): unlinks after
`subprocess.run`, and both `except` handlers unlink before re-raising.
Result: temp file removed? -/
def get_explain_cleanup (o : RunOutcome) : Bool :=
  match o with
  | .completed _ _ _ => true
  | .timedOut => true
  | .raised _ => true

/-! ## `extract_schema.py:mask_password` (lines 23-37) -/

/-- Transcription of `mask_password`.  The `try/except: return "***"` wrapper
of the source cannot fire in this model (none of the string operations
raises), so it is not represented. -/
def mask_password (connection_string : String) : String :=
  if containsSubstr connection_string "@" then
    let parts := splitChar '@' connection_string.data
    if 2 ≤ parts.length ∧ isInfixB "://".data (parts.headD []) = true then
      let protocol_and_creds := parts.headD []
      if isInfixB ":".data ((splitStr2 '/' '/' protocol_and_creds).getLastD []) = true then
        let protocol_user := (rsplit1 ':' protocol_and_creds).headD []
        String.mk protocol_user ++ (":***@" ++ String.mk (parts.getD 1 []))
      else connection_string
    else connection_string
  else connection_string

/-! ## Explain capture: `05_generate_explain_output.py:generate_explain_output`

Per query, the tool first attempts explain with verbosity
`allPlansExecution`; `RunOutcome.timedOut` is the client-side
`subprocess.TimeoutExpired`, and a completed run with a non-zero exit code
whose stderr carries a timeout marker is re-raised as the same exception
(lines 145-146).  Both routes fall back to a single `executionStats`
attempt; any other failure records ERROR with no fallback. -/

/-- Python `str.lower()` on the character data (ASCII case mapping suffices
for the timeout markers being searched). -/
def pyLower (s : String) : String := String.mk (s.data.map Char.toLower)

/-- Timeout detection on the captured stderr (line 145):
`'command timeout' in result.stderr or 'timed out' in result.stderr.lower()`. -/
def stderrTimeout (err : String) : Bool :=
  containsSubstr err "command timeout" || containsSubstr (pyLower err) "timed out"

/-- Outcome recorded for one explain unit. -/
inductive ExplainRecord where
  | success (mode : String)
  | error
deriving DecidableEq

/-- The reduced-verbosity fallback attempt (lines 159-173): a zero exit code
records SUCCESS with mode `executionStats`; a non-zero exit code, a timeout
or any exception records ERROR. -/
def runFallbackExplain (low : RunOutcome) : ExplainRecord :=
  match low with
  | .completed rc _ _ => if rc = 0 then .success "executionStats" else .error
  | .timedOut => .error
  | .raised _ => .error

/-- Control flow for one query (lines 133-177).  `high` is the outcome of the
`allPlansExecution` attempt, `low` of the `executionStats` attempt (consulted
only if the fallback runs).  Returns the recorded outcome and the number of
reduced-verbosity attempts made. -/
def processExplainQuery (high low : RunOutcome) : ExplainRecord × Nat :=
  match high with
  | .completed rc _ err =>
    if rc = 0 then (.success "allPlansExecution", 0)
    else if stderrTimeout err then (runFallbackExplain low, 1)
    else (.error, 0)
  | .timedOut => (runFallbackExplain low, 1)
  | .raised _ => (.error, 0)

/-- The `for idx, q in enumerate(queries, 1)` loop: every query is processed;
no per-unit outcome aborts the loop. -/
def processExplainQueries (qs : List (RunOutcome × RunOutcome)) :
    List (ExplainRecord × Nat) :=
  qs.map (fun p => processExplainQuery p.1 p.2)

/-! ## Query-timing CSV merge: `04_run_mongodb_queries.py:save_results_to_csv`

A row is an association list field → value in field insertion order,
mirroring the Python `dict` rows of `csv.DictReader` / `DictWriter`;
the in-memory `existing_data` dict keyed by description is a keyed list in
insertion order with in-place update, as Python dicts behave. -/

/-- One element of the `results` list of `execute_queries`; `time` carries
the decimal rendering of the measured float opaquely. -/
structure QueryResult where
  description : String
  status : String
  time : String
deriving DecidableEq

/-- A CSV row as a field → value association in field order. -/
abbrev Row := List (String × String)

/-- Python `d.get(k)` / `d[k]` on an insertion-ordered dict modelled as an
association list. -/
def pyGet (l : List (String × α)) (k : String) : Option α :=
  match l with
  | [] => none
  | kv :: rest => if kv.1 = k then some kv.2 else pyGet rest k

/-- Python `row.get(k)` on an association-list row. -/
def rowGet (r : Row) (k : String) : Option String := pyGet r k

/-- Python `row.get(k, d)`. -/
def rowGetD (r : Row) (k d : String) : String := (rowGet r k).getD d

/-- Python `d[k] = v` on an insertion-ordered dict: replace in place if the
key exists, else append. -/
def dictUpsert (k : String) (v : α) : List (String × α) → List (String × α)
  | [] => [(k, v)]
  | kv :: rest => if kv.1 = k then (k, v) :: rest else kv :: dictUpsert k v rest

/-- Lookup in the description-keyed `existing_data` dict. -/
def dataGet (data : List (String × Row)) (k : String) : Option Row := pyGet data k

/-- In-place modification of the value stored under key `k`. -/
def dictModify (k : String) (f : α → α) : List (String × α) → List (String × α)
  | [] => []
  | kv :: rest => if kv.1 = k then (kv.1, f kv.2) :: rest else kv :: dictModify k f rest

/-- In-place modification of the row stored under key `k`. -/
def dataModify (k : String) (f : Row → Row) (data : List (String × Row)) :
    List (String × Row) := dictModify k f data

/-- The persisted CSV file: a header record and data records. -/
structure CsvFile where
  header : List String
  records : List (List String)
deriving DecidableEq

/-- `csv.DictReader` plus the keying loop (lines 39-43): each record is
zipped with the header into a row dict and stored under its
`Query Description` value. -/
def readRows (header : List String) (records : List (List String)) :
    List (String × Row) :=
  records.foldl
    (fun acc rec =>
      let row := header.zip rec
      dictUpsert (rowGetD row "Query Description" "") row acc)
    []

/-- The update loop (lines 49-53): create a fresh `{'Query Description': desc}`
row when the description is new, then set the run column to the time (on
SUCCESS) or `ERROR`. -/
def applyResults (column_header : String) (results : List QueryResult)
    (data : List (String × Row)) : List (String × Row) :=
  results.foldl
    (fun acc res =>
      let acc2 :=
        if (dataGet acc res.description).isSome then acc
        else dictUpsert res.description [("Query Description", res.description)] acc
      dataModify res.description
        (fun row =>
          dictUpsert column_header
            (if res.status = "SUCCESS" then res.time else "ERROR") row)
        acc2)
    data

/-- `csv.DictWriter` write-out (lines 56-60): one record per stored row, each
field rendered with `''` for a missing key (the DictWriter `restval`). -/
def writeTable (header : List String) (data : List (String × Row)) : CsvFile :=
  CsvFile.mk header (data.map (fun kv => header.map (fun f => rowGetD kv.2 f "")))

/-- The run column name `f"{collection}_{epoch}"` (line 32). -/
def columnHeader (collection : String) (epoch : Nat) : String :=
  collection ++ ("_" ++ toString epoch)

/-- `save_results_to_csv` (lines 29-63), with the filesystem state made
explicit: `existing` is the CSV file at the output path, if any. -/
def save_results_to_csv (existing : Option CsvFile) (column_header : String)
    (results : List QueryResult) : CsvFile :=
  let fieldnames := match existing with
    | none => ["Query Description"]
    | some f => f.header
  let data := match existing with
    | none => []
    | some f => readRows f.header f.records
  writeTable (fieldnames ++ [column_header]) (applyResults column_header results data)

/-! ## Process exit codes of the five tools (C7)

Each `main` is modelled as a function from the relevant environment
(configuration presence, input-file existence, per-unit subprocess
outcomes) to its process exit code. -/

/-- Environment of `03_create_mongodb_indexes.py`. -/
structure Env03 where
  connection_string : String
  indexes_file_exists : Bool
  unitOutcomes : List RunOutcome

/-- `create_indexes` (lines 27-91): one status per unit, never aborts. -/
def create_indexes (outcomes : List RunOutcome) : List String :=
  outcomes.map (fun o => (create_index_unit o).2)

/-- `main` of 03 (lines 94-110): `load_config` performs no validation of the
connection string; the only exit-1 path is a missing indexes file. -/
def main03 (e : Env03) : Nat :=
  if !e.indexes_file_exists then 1
  else
    let _ := create_indexes e.unitOutcomes
    0

/-- Environment of `04_run_mongodb_queries.py`. -/
structure Env04 where
  connection_string : String
  queries_file_exists : Bool
  unitOutcomes : List RunOutcome

/-- `main` of 04 (lines 148-164): same structure as 03. -/
def main04 (e : Env04) : Nat :=
  if !e.queries_file_exists then 1
  else
    let _ := e.unitOutcomes.map (fun o => (run_query_unit o).2)
    0

/-- Environment of `05_generate_explain_output.py`. -/
structure Env05 where
  connection_string : String
  queries_file_exists : Bool
  queryOutcomes : List (RunOutcome × RunOutcome)

/-- `main` of 05 (lines 185-201): same structure as 03. -/
def main05 (e : Env05) : Nat :=
  if !e.queries_file_exists then 1
  else
    let _ := processExplainQueries e.queryOutcomes
    0

/-- Environment of `schema_migration/apply_schema.py`. -/
structure EnvApply where
  connection_string : String
  schema_file_ok : Bool
  outcome : RunOutcome

/-- `main` of apply_schema.py (lines 244-285): `load_config` exits 1 on an
empty `DEST_MONGODB_CONNECTION_STRING`, `load_schema` exits 1 when the schema
file cannot be loaded, and a failed/timed-out mongosh invocation exits 1. -/
def mainApply (e : EnvApply) : Nat :=
  if e.connection_string = "" then 1
  else if !e.schema_file_ok then 1
  else if (apply_schema_run e.outcome).2 then 0 else 1

/-- Environment of `schema_migration/extract_schema.py`. -/
structure EnvExtract where
  cliFound : Bool
  connection_string : String
  outcome : RunOutcome
  parseOk : Bool
  writeOk : Bool

/-- `extract_schema` return-vs-`sys.exit(1)` decision (lines 245-332): a
schema is returned only when the client exited 0 with nonblank stdout that
parses as JSON. -/
def extract_schema_returns (o : RunOutcome) (parseOk : Bool) : Bool :=
  match o with
  | .completed rc out _ => decide (rc = 0) && !(out.trim = "") && parseOk
  | .timedOut => false
  | .raised _ => false

/-- `main` of extract_schema.py (lines 335-394). -/
def mainExtract (e : EnvExtract) : Nat :=
  if !e.cliFound then 1
  else if e.connection_string = "" then 1
  else if !extract_schema_returns e.outcome e.parseOk then 1
  else if e.writeOk then 0 else 1

/-! ## Derived table observations (used to state the CSV claims) -/

/-- The `Query Description` key of every data record of a CSV file, in file
order. -/
def tableDescs (t : CsvFile) : List String :=
  t.records.map (fun rec => rowGetD (t.header.zip rec) "Query Description" "")

/-- The cell stored in the file under row key `desc` and column `field`. -/
def tableCell (t : CsvFile) (desc field : String) : Option String :=
  (dataGet (readRows t.header t.records) desc).bind (fun row => rowGet row field)

/-! ## Concrete sample data (used by witness theorems) -/

/-- The identity index present on every collection. -/
def wIdxId : IndexSchema := ⟨"_id_", [("_id", KeyVal.num 1)], false, false, false, none⟩

/-- A sample secondary index. -/
def wIdxEmail : IndexSchema :=
  ⟨"idx_email", [("email", KeyVal.num 1)], true, false, true, some 3600⟩

/-- A sample sharded collection. -/
def wCollApps : CollectionSchema :=
  ⟨"applications", 10, [wIdxId, wIdxEmail], true, some [("appId", KeyVal.num 1)]⟩

/-- A sample unsharded collection. -/
def wCollLogs : CollectionSchema := ⟨"logs", 5, [wIdxId], false, none⟩

/-- A sample database. -/
def wDb : DatabaseSchema := ⟨"mobile_apps", [wCollApps, wCollLogs]⟩

/-- A sample snapshot. -/
def wSchema : SchemaSnapshot := ⟨[wDb]⟩

/-- Oracle under which every generated statement succeeds. -/
def okOracle : FailOracle :=
  ⟨fun _ => none, fun _ _ => none, fun _ _ _ => none⟩

/-- Oracle under which every fault-isolated statement throws. -/
def allFailOracle : FailOracle :=
  ⟨fun _ => some "enable failed", fun _ _ => some "create failed",
   fun _ _ _ => some "index failed"⟩

/-! ## Theorems -/

/-- Claim C1, counterexample: when the external client invocation of
`apply_schema` (or `extract_schema`) hits the wall-clock timeout, the
transient script file is not removed — `os.unlink` is only reached after
`subprocess.run` returns, and the `TimeoutExpired` handlers skip it.  This
refutes the claim that every invocation of the command executor removes the
file on every exit path. -/
theorem c1_counterexample :
    (apply_schema_run RunOutcome.timedOut).1 = false
    ∧ extract_schema_cleanup RunOutcome.timedOut = false :=
  ⟨rfl, rfl⟩

/-- Claim C1 (amended): the per-unit runners (index creation, query
execution, explain capture) remove the transient script file on every exit
path; `apply_schema` and `extract_schema` remove it exactly when the
external client ran to completion (with any exit code), and leave it behind
on timeout or unexpected exception. -/
theorem c1_tempfile_cleanup :
    (∀ o, (create_index_unit o).1 = true)
    ∧ (∀ o, (run_query_unit o).1 = true)
    ∧ (∀ o, get_explain_cleanup o = true)
    ∧ (∀ rc out err, (apply_schema_run (RunOutcome.completed rc out err)).1 = true)
    ∧ (apply_schema_run RunOutcome.timedOut).1 = false
    ∧ (∀ m, (apply_schema_run (RunOutcome.raised m)).1 = false)
    ∧ (∀ rc out err, extract_schema_cleanup (RunOutcome.completed rc out err) = true)
    ∧ extract_schema_cleanup RunOutcome.timedOut = false
    ∧ (∀ m, extract_schema_cleanup (RunOutcome.raised m) = false) := by
  refine ⟨fun o => ?_, fun o => ?_, fun o => ?_, fun _ _ _ => rfl, rfl,
    fun _ => rfl, fun _ _ _ => rfl, rfl, fun _ => rfl⟩
  · cases o <;> rfl
  · cases o <;> rfl
  · cases o <;> rfl

/-- The final state of the index loop never touches the `databases` counter. -/
theorem runIdxLoop_databases (o : FailOracle) (di ci : Nat) (t c : String) :
    ∀ (idxs : List IndexSchema) (ii : Nat) (st : ApplyState),
      (runIdxLoop o di ci t c ii st idxs).2.databases = st.databases := by
  intro idxs
  induction idxs with
  | nil => intro ii st; rfl
  | cons idx rest ih =>
    intro ii st
    by_cases h : idx.name = "_id_"
    · simp [runIdxLoop, h, ih]
    · rcases h2 : o.index di ci ii with _ | m <;>
        simp [runIdxLoop, h, runIndex, h2, ih]

/-- Running one collection never touches the `databases` counter. -/
theorem runColl_databases (o : FailOracle) (di ci : Nat) (t : String)
    (coll : CollectionSchema) (st : ApplyState) :
    (runColl o di ci t coll st).2.databases = st.databases := by
  rcases h2 : o.coll di ci with _ | m <;>
    simp [runColl, h2, runIdxLoop_databases]

/-- Running the collection loop never touches the `databases` counter. -/
theorem runCollLoop_databases (o : FailOracle) (di : Nat) (t : String) :
    ∀ (colls : List CollectionSchema) (ci : Nat) (st : ApplyState),
      (runCollLoop o di t ci st colls).2.databases = st.databases := by
  intro colls
  induction colls with
  | nil => intro ci st; rfl
  | cons c rest ih => intro ci st; simp [runCollLoop, ih, runColl_databases]

/-- Each database contributes exactly one to the `databases` counter,
whatever the oracle makes the per-collection and per-index statements do. -/
theorem runDbLoop_databases (o : FailOracle) (dbPfx : String) :
    ∀ (dbs : List DatabaseSchema) (di : Nat) (st : ApplyState),
      (runDbLoop o dbPfx di st dbs).2.databases = st.databases + dbs.length := by
  intro dbs
  induction dbs with
  | nil => intro di st; simp [runDbLoop]
  | cons db rest ih =>
    intro di st
    simp [runDbLoop, runDb, ih, runCollLoop_databases]
    omega

/-- Claim C9: in a run of the script produced by `generate_apply_script`,
`results.databases++` executes exactly once per database, outside every
fault-isolation block, so the `Databases Created` figure always equals the
number of databases in the snapshot, whatever per-collection or per-index
statements fail. -/
theorem c9_databases_counter (schema : SchemaSnapshot) (dbPfx : String)
    (o : FailOracle) :
    (runApplyScript schema dbPfx o).2.databases = schema.databases.length := by
  simp [runApplyScript, runDbLoop_databases]

/-- Claim C5: explain capture per query — a timed-out high-verbosity attempt
(client-side `TimeoutExpired`, or a completed run whose stderr carries a
timeout marker) is followed by exactly one reduced-verbosity attempt whose
outcome is recorded; a non-timeout failure records ERROR with no fallback
attempt; and every query of the batch is processed. -/
theorem c5_explain_fallback :
    (∀ low, processExplainQuery RunOutcome.timedOut low = (runFallbackExplain low, 1))
    ∧ (∀ out err low, processExplainQuery (RunOutcome.completed 0 out err) low
        = (ExplainRecord.success "allPlansExecution", 0))
    ∧ (∀ rc out err low, rc ≠ 0 → stderrTimeout err = true →
        processExplainQuery (RunOutcome.completed rc out err) low
          = (runFallbackExplain low, 1))
    ∧ (∀ rc out err low, rc ≠ 0 → stderrTimeout err = false →
        processExplainQuery (RunOutcome.completed rc out err) low
          = (ExplainRecord.error, 0))
    ∧ (∀ m low, processExplainQuery (RunOutcome.raised m) low = (ExplainRecord.error, 0))
    ∧ (∀ out err, runFallbackExplain (RunOutcome.completed 0 out err)
        = ExplainRecord.success "executionStats")
    ∧ (∀ rc out err, rc ≠ 0 → runFallbackExplain (RunOutcome.completed rc out err)
        = ExplainRecord.error)
    ∧ (runFallbackExplain RunOutcome.timedOut = ExplainRecord.error)
    ∧ (∀ qs, (processExplainQueries qs).length = qs.length) := by
  refine ⟨fun low => rfl, fun out err low => rfl,
    fun rc out err low h1 h2 => ?_, fun rc out err low h1 h2 => ?_,
    fun m low => rfl, fun out err => rfl, fun rc out err h1 => ?_, rfl,
    fun qs => by simp [processExplainQueries]⟩
  · simp [processExplainQuery, h1, h2]
  · simp [processExplainQuery, h1, h2]
  · simp [runFallbackExplain, h1]

/-- Witness for C5 at concrete inputs: a non-timeout high-verbosity failure
records ERROR with no fallback, and a timed-out one falls back once and
records the reduced-verbosity success. -/
theorem c5_witness :
    processExplainQuery (RunOutcome.completed 1 "" "planner gave up") RunOutcome.timedOut
      = (ExplainRecord.error, 0)
    ∧ processExplainQuery RunOutcome.timedOut (RunOutcome.completed 0 "plan" "")
      = (ExplainRecord.success "executionStats", 1) := by
  constructor
  · exact c5_explain_fallback.2.2.2.1 1 "" "planner gave up" RunOutcome.timedOut
      (by decide) (by decide)
  · rw [c5_explain_fallback.1 (RunOutcome.completed 0 "plan" "")]
    rfl

/-- Claim C7, counterexample: `03_create_mongodb_indexes.py` with an empty
(missing) `MONGODB_CONNECTION_STRING` but an existing indexes file exits
with code 0, not 1 — `load_config` never validates the connection string. -/
theorem c7_counterexample :
    main03 (Env03.mk "" true [RunOutcome.timedOut]) = 0 := rfl

/-- Claim C7 (amended): every tool exits 0 when its requested operation runs
to completion, even if every per-unit operation fails, and exits 1 when its
input file does not exist; the schema-migration tools additionally exit 1
when the connection string is missing, but the index/query/explain tools
perform no connection-string check. -/
theorem c7_exit_codes :
    (∀ e : Env03, e.indexes_file_exists = true → main03 e = 0)
    ∧ (∀ e : Env03, e.indexes_file_exists = false → main03 e = 1)
    ∧ (∀ e : Env04, e.queries_file_exists = true → main04 e = 0)
    ∧ (∀ e : Env04, e.queries_file_exists = false → main04 e = 1)
    ∧ (∀ e : Env05, e.queries_file_exists = true → main05 e = 0)
    ∧ (∀ e : Env05, e.queries_file_exists = false → main05 e = 1)
    ∧ (∀ e : EnvApply, e.connection_string = "" → mainApply e = 1)
    ∧ (∀ e : EnvApply, e.schema_file_ok = false → mainApply e = 1)
    ∧ (∀ e : EnvApply, ∀ out err, e.connection_string ≠ "" → e.schema_file_ok = true →
        e.outcome = RunOutcome.completed 0 out err → mainApply e = 0)
    ∧ (∀ e : EnvExtract, e.cliFound = false → mainExtract e = 1)
    ∧ (∀ e : EnvExtract, e.cliFound = true → e.connection_string = "" →
        mainExtract e = 1) := by
  refine ⟨fun e h => by simp [main03, h], fun e h => by simp [main03, h],
    fun e h => by simp [main04, h], fun e h => by simp [main04, h],
    fun e h => by simp [main05, h], fun e h => by simp [main05, h],
    fun e h => by simp [mainApply, h],
    fun e h => by simp [mainApply, h],
    fun e out err h1 h2 h3 => by simp [mainApply, h1, h2, h3, apply_schema_run],
    fun e h => by simp [mainExtract, h],
    fun e h1 h2 => by simp [mainExtract, h1, h2]⟩

/-- Witness for C7 at concrete inputs: tool 03 exits 0 despite every unit
failing, and apply_schema exits 1 on a missing connection string. -/
theorem c7_witness :
    main03 (Env03.mk "mongodb://h" true [RunOutcome.raised "x", RunOutcome.timedOut]) = 0
    ∧ mainApply (EnvApply.mk "" true RunOutcome.timedOut) = 1 :=
  ⟨c7_exit_codes.1 _ rfl, c7_exit_codes.2.2.2.2.2.2.1 _ rfl⟩

/-! ### Segment (contiguous sublist) infrastructure -/

/-- Transitivity of "occurs as a contiguous segment". -/
theorem seg_trans {α : Type} {L M X : List α}
    (h1 : ∃ p q, L = p ++ M ++ q) (h2 : ∃ p q, M = p ++ X ++ q) :
    ∃ p q, L = p ++ X ++ q := by
  obtain ⟨p1, q1, e1⟩ := h1
  obtain ⟨p2, q2, e2⟩ := h2
  exact ⟨p1 ++ p2, q2 ++ q1, by simp [e1, e2, List.append_assoc]⟩

/-- A segment of `L` is a segment of `A ++ L`. -/
theorem seg_append_left {α : Type} (A : List α) {L X : List α}
    (h : ∃ p q, L = p ++ X ++ q) : ∃ p q, A ++ L = p ++ X ++ q := by
  obtain ⟨p, q, e⟩ := h
  exact ⟨A ++ p, q, by simp [e, List.append_assoc]⟩

/-- A segment of `L` is a segment of `L ++ A`. -/
theorem seg_append_right {α : Type} (A : List α) {L X : List α}
    (h : ∃ p q, L = p ++ X ++ q) : ∃ p q, L ++ A = p ++ X ++ q := by
  obtain ⟨p, q, e⟩ := h
  exact ⟨p, q ++ A, by simp [e, List.append_assoc]⟩

/-- Members of a segment are members of the whole. -/
theorem mem_of_seg {α : Type} {L X : List α} (h : ∃ p q, L = p ++ X ++ q)
    {x : α} (hx : x ∈ X) : x ∈ L := by
  obtain ⟨p, q, e⟩ := h
  subst e
  simp [hx]

/-- Each database of the snapshot contributes its block as a segment of the
generated database loop. -/
theorem seg_dbLoop (dbPfx : String) {db : DatabaseSchema} :
    ∀ {dbs : List DatabaseSchema}, db ∈ dbs →
      ∃ p q, dbLoop dbPfx dbs = p ++ dbLines dbPfx db ++ q := by
  intro dbs h
  induction dbs with
  | nil => cases h
  | cons d rest ih =>
    rcases List.mem_cons.mp h with h1 | h1
    · subst h1
      exact ⟨[], dbLoop dbPfx rest, by simp [dbLoop]⟩
    · obtain ⟨p, q, e⟩ := ih h1
      exact ⟨dbLines dbPfx d ++ p, q, by simp [dbLoop, e, List.append_assoc]⟩

/-- Each collection contributes its block as a segment of the collection
loop. -/
theorem seg_collLoop (t : String) {coll : CollectionSchema} :
    ∀ {colls : List CollectionSchema}, coll ∈ colls →
      ∃ p q, collLoop t colls = p ++ collLines t coll ++ q := by
  intro colls h
  induction colls with
  | nil => cases h
  | cons c rest ih =>
    rcases List.mem_cons.mp h with h1 | h1
    · subst h1
      exact ⟨[], collLoop t rest, by simp [collLoop]⟩
    · obtain ⟨p, q, e⟩ := ih h1
      exact ⟨collLines t c ++ p, q, by simp [collLoop, e, List.append_assoc]⟩

/-- The block of each database of the snapshot is a segment of the full
generated script. -/
theorem seg_scriptLines_db {schema : SchemaSnapshot} (dbPfx : String)
    {db : DatabaseSchema} (hdb : db ∈ schema.databases) :
    ∃ p q, scriptLines schema dbPfx = p ++ dbLines dbPfx db ++ q := by
  obtain ⟨p, q, e⟩ := seg_dbLoop dbPfx hdb
  exact ⟨headerLines schema.databases.length dbPfx ++ p, q ++ footerLines,
    by simp [scriptLines, e, List.append_assoc]⟩

/-- The collection loop is a segment of its database block. -/
theorem seg_dbLines_collLoop (dbPfx : String) (db : DatabaseSchema) :
    ∃ p q, dbLines dbPfx db
      = p ++ collLoop (targetName dbPfx db.database) db.collections ++ q := by
  refine ⟨dbHeaderLines (targetName dbPfx db.database)
    ++ (if db.collections.any (fun c => c.is_sharded)
        then enableShardingLines (targetName dbPfx db.database) else []),
    ["results.databases++;", ""], ?_⟩
  simp [dbLines, List.append_assoc]

/-- The block of each collection of each database is a segment of the full
generated script. -/
theorem seg_scriptLines_coll {schema : SchemaSnapshot} (dbPfx : String)
    {db : DatabaseSchema} {coll : CollectionSchema}
    (hdb : db ∈ schema.databases) (hc : coll ∈ db.collections) :
    ∃ p q, scriptLines schema dbPfx
      = p ++ collLines (targetName dbPfx db.database) coll ++ q :=
  seg_trans (seg_trans (seg_scriptLines_db dbPfx hdb)
    (seg_dbLines_collLoop dbPfx db)) (seg_collLoop _ hc)

/-- The index section is the trailing segment of its collection block. -/
theorem seg_collLines_indexSection (t : String) (coll : CollectionSchema) :
    ∃ p q, collLines t coll = p ++ indexSection t coll ++ q := by
  refine ⟨["// Collection: " ++ coll.name,
    "print('   📄 Creating collection: " ++ (coll.name ++ "');"),
    ""] ++ (if coll.is_sharded then shardedCollLines t coll.name (shardKeyJson coll)
            else unshardedCollLines t coll.name), [], ?_⟩
  simp [collLines, List.append_assoc]

/-- The create-index block of a non-identity index is a segment of the
index loop. -/
theorem seg_indexLoop (t c : String) {idx : IndexSchema}
    (hname : ¬ idx.name = "_id_") :
    ∀ {idxs : List IndexSchema}, idx ∈ idxs →
      ∃ p q, indexLoop t c idxs = p ++ indexBlockLines t c idx ++ q := by
  intro idxs h
  induction idxs with
  | nil => cases h
  | cons i rest ih =>
    rcases List.mem_cons.mp h with h1 | h1
    · subst h1
      exact ⟨[], indexLoop t c rest, by simp [indexLoop, hname]⟩
    · obtain ⟨p, q, e⟩ := ih h1
      exact ⟨(if i.name = "_id_" then [] else indexBlockLines t c i) ++ p, q,
        by simp [indexLoop, e, List.append_assoc]⟩

/-- The index loop is a segment of the index section when the collection has
any index at all. -/
theorem seg_indexSection (t : String) (coll : CollectionSchema)
    (hne : coll.indexes ≠ []) :
    ∃ p q, indexSection t coll = p ++ indexLoop t coll.name coll.indexes ++ q := by
  refine ⟨["   // Creating " ++ (toString coll.indexes.length ++ " indexes")], [""], ?_⟩
  rw [indexSection, if_neg]
  · rfl
  · simpa [List.isEmpty_iff] using hne

/-- The emitted index blocks are exactly one per non-identity index, in
order. -/
theorem indexLoop_eq_filter (t c : String) :
    ∀ idxs : List IndexSchema,
      indexLoop t c idxs
        = (idxs.filter (fun i => !(i.name == "_id_"))).flatMap (indexBlockLines t c) := by
  intro idxs
  induction idxs with
  | nil => rfl
  | cons idx rest ih =>
    by_cases h : idx.name = "_id_" <;> simp [indexLoop, h, ih]

/-- Claim C3: in the script produced by `generate_apply_script`, the index
named `_id_` is never the subject of a create-index statement, and every
other index of every collection of the snapshot is emitted: the index
section of each collection appears in the script, and its loop emits
exactly the blocks of the non-`_id_` indexes, in order. -/
theorem c3_identity_index_never_replayed (schema : SchemaSnapshot)
    (dbPfx : String) (db : DatabaseSchema) (coll : CollectionSchema)
    (hdb : db ∈ schema.databases) (hc : coll ∈ db.collections) :
    (∃ pre post, scriptLines schema dbPfx
        = pre ++ indexSection (targetName dbPfx db.database) coll ++ post)
    ∧ indexLoop (targetName dbPfx db.database) coll.name coll.indexes
        = (coll.indexes.filter (fun i => !(i.name == "_id_"))).flatMap
            (indexBlockLines (targetName dbPfx db.database) coll.name) :=
  ⟨seg_trans (seg_scriptLines_coll dbPfx hdb hc)
      (seg_collLines_indexSection _ coll),
   indexLoop_eq_filter _ _ _⟩

/-- Witness for C3 on the sample snapshot: the `applications` collection's
index section is in the script, and its loop consists of exactly the
`idx_email` block — the `_id_` index is skipped. -/
theorem c3_witness :
    (∃ pre post, scriptLines wSchema "" =
        pre ++ indexSection (targetName "" wDb.database) wCollApps ++ post)
    ∧ indexLoop (targetName "" wDb.database) wCollApps.name wCollApps.indexes
        = (wCollApps.indexes.filter (fun i => !(i.name == "_id_"))).flatMap
            (indexBlockLines (targetName "" wDb.database) wCollApps.name) :=
  c3_identity_index_never_replayed wSchema "" wDb wCollApps (by decide) (by decide)

/-- Claim C10: `generate_apply_script` interpolates the database name, the
collection name, the index name with its serialized key specification, and
the serialized shard-key specification verbatim into the script text by
plain concatenation, with no validation or escaping of the interpolated
strings — any quote or delimiter characters they contain appear unchanged
in the emitted lines. -/
theorem c10_verbatim_interpolation (schema : SchemaSnapshot) (dbPfx : String)
    (db : DatabaseSchema) (coll : CollectionSchema) (idx : IndexSchema)
    (hdb : db ∈ schema.databases) (hc : coll ∈ db.collections)
    (hi : idx ∈ coll.indexes) (hname : ¬ idx.name = "_id_") :
    ("var targetDb = db.getSiblingDB('" ++ (targetName dbPfx db.database ++ "');"))
      ∈ scriptLines schema dbPfx
    ∧ ("    targetDb.createCollection('" ++ (coll.name ++ "');"))
      ∈ scriptLines schema dbPfx
    ∧ createIndexLine coll.name idx ∈ scriptLines schema dbPfx
    ∧ (coll.is_sharded = true →
        ("    adminDb.runCommand(\x7b shardCollection: '"
          ++ (targetName dbPfx db.database ++ ("." ++ (coll.name ++ ("', key: "
          ++ (shardKeyJson coll ++ " \x7d);"))))))
          ∈ scriptLines schema dbPfx) := by
  have hdbseg := seg_scriptLines_db dbPfx hdb
  have hcollseg := seg_scriptLines_coll dbPfx hdb hc
  refine ⟨?_, ?_, ?_, ?_⟩
  · apply mem_of_seg hdbseg
    have hseg : ∃ p q, dbLines dbPfx db
        = p ++ dbHeaderLines (targetName dbPfx db.database) ++ q :=
      ⟨[], (if db.collections.any (fun c => c.is_sharded)
            then enableShardingLines (targetName dbPfx db.database) else [])
        ++ (collLoop (targetName dbPfx db.database) db.collections
            ++ ["results.databases++;", ""]),
       by simp [dbLines, List.append_assoc]⟩
    exact mem_of_seg hseg (by simp [dbHeaderLines])
  · apply mem_of_seg hcollseg
    by_cases hs : coll.is_sharded <;>
      simp [collLines, hs, shardedCollLines, unshardedCollLines]
  · apply mem_of_seg (seg_trans (seg_trans hcollseg
      (seg_collLines_indexSection _ coll))
      (seg_trans (seg_indexSection _ coll (List.ne_nil_of_mem hi))
        (seg_indexLoop _ _ hname hi)))
    simp [indexBlockLines]
  · intro hs
    apply mem_of_seg hcollseg
    simp [collLines, hs, shardedCollLines]

/-- Witness for C10 on the sample snapshot: the raw `mobile_apps`,
`applications` and `idx_email` interpolations all occur in the generated
script. -/
theorem c10_witness :
    ("var targetDb = db.getSiblingDB('" ++ (targetName "" wDb.database ++ "');"))
      ∈ scriptLines wSchema ""
    ∧ ("    targetDb.createCollection('" ++ (wCollApps.name ++ "');"))
      ∈ scriptLines wSchema ""
    ∧ createIndexLine wCollApps.name wIdxEmail ∈ scriptLines wSchema ""
    ∧ (wCollApps.is_sharded = true →
        ("    adminDb.runCommand(\x7b shardCollection: '"
          ++ (targetName "" wDb.database ++ ("." ++ (wCollApps.name ++ ("', key: "
          ++ (shardKeyJson wCollApps ++ " \x7d);"))))))
          ∈ scriptLines wSchema "") :=
  c10_verbatim_interpolation wSchema "" wDb wCollApps wIdxEmail
    (by decide) (by decide) (by decide) (by decide)

/-! ### Character-index discrimination lemmas -/

/-- If the needle and the haystack disagree at some index inside the
haystack's literal head, the prefix test fails whatever follows. -/
theorem isPrefixB_ne_at (k : Nat) :
    ∀ (n l x : List Char) (h1 : k < n.length) (h2 : k < l.length),
      n.get ⟨k, h1⟩ ≠ l.get ⟨k, h2⟩ → isPrefixB n (l ++ x) = false := by
  induction k with
  | zero =>
    intro n l x h1 h2 hne
    match n, l with
    | a :: as, b :: bs =>
      have hab : a ≠ b := hne
      simp [isPrefixB, hab]
  | succ k ih =>
    intro n l x h1 h2 hne
    match n, l with
    | a :: as, b :: bs =>
      have htl := ih as bs x (Nat.lt_of_succ_lt_succ h1) (Nat.lt_of_succ_lt_succ h2) hne
      simp [isPrefixB, htl]

/-- Two lists that disagree at an index inside both of their literal heads
stay different whatever is appended to either. -/
theorem listNeAt (k : Nat) :
    ∀ (l1 l2 x y : List Char) (h1 : k < l1.length) (h2 : k < l2.length),
      l1.get ⟨k, h1⟩ ≠ l2.get ⟨k, h2⟩ → l1 ++ x ≠ l2 ++ y := by
  induction k with
  | zero =>
    intro l1 l2 x y h1 h2 hne
    match l1, l2 with
    | a :: as, b :: bs =>
      intro he
      exact hne (List.cons.inj he).1
  | succ k ih =>
    intro l1 l2 x y h1 h2 hne
    match l1, l2 with
    | a :: as, b :: bs =>
      intro he
      exact ih as bs x y (Nat.lt_of_succ_lt_succ h1) (Nat.lt_of_succ_lt_succ h2)
        hne (List.cons.inj he).2

/-- A printed line whose leading literal does not start with `E` can never
start with `Errors: `. -/
theorem startsWith_err_false (lit x : String) (h2 : 0 < lit.data.length)
    (hne : lit.data.get ⟨0, h2⟩ ≠ 'E') :
    startsWithB (lit ++ x) "Errors: " = false := by
  unfold startsWithB
  rw [String.data_append]
  exact isPrefixB_ne_at 0 _ _ _ (by decide) h2
    (fun he => hne (he.symm.trans (by decide)))

/-! ### No body line of a run ever starts with `Errors: ` -/

/-- The preamble prints never start with `Errors: `. -/
theorem noErr_runHeader (n : Nat) (dbPfx : String) :
    ∀ l ∈ runHeader n dbPfx, startsWithB l "Errors: " = false := by
  intro l hl
  simp only [runHeader, List.mem_cons, List.not_mem_nil, or_false] at hl
  rcases hl with h|h|h|h|h|h|h <;> subst h
  · decide
  · decide
  · decide
  · exact startsWith_err_false "Total Databases: " _ (by decide) (by decide)
  · exact startsWith_err_false "Database Prefix: " _ (by decide) (by decide)
  · decide
  · decide

/-- A single index block's prints never start with `Errors: `. -/
theorem noErr_runIndex (o : FailOracle) (di ci ii : Nat) (t c : String)
    (idx : IndexSchema) (st : ApplyState) :
    ∀ l ∈ (runIndex o di ci ii t c idx st).1, startsWithB l "Errors: " = false := by
  intro l hl
  rcases h2 : o.index di ci ii with _ | m <;> rw [runIndex, h2] at hl <;>
    simp only [List.mem_cons, List.not_mem_nil, or_false] at hl <;> subst hl
  · exact startsWith_err_false "      ✅ Index: " _ (by decide) (by decide)
  · exact startsWith_err_false "      ❌ Index " _ (by decide) (by decide)

/-- The index loop's prints never start with `Errors: `. -/
theorem noErr_runIdxLoop (o : FailOracle) (di ci : Nat) (t c : String) :
    ∀ (idxs : List IndexSchema) (ii : Nat) (st : ApplyState),
      ∀ l ∈ (runIdxLoop o di ci t c ii st idxs).1,
        startsWithB l "Errors: " = false := by
  intro idxs
  induction idxs with
  | nil => intro ii st l hl; cases hl
  | cons idx rest ih =>
    intro ii st l hl
    by_cases h : idx.name = "_id_"
    · rw [runIdxLoop, if_pos h] at hl
      exact ih (ii + 1) st l hl
    · rw [runIdxLoop, if_neg h] at hl
      rcases List.mem_append.mp hl with h1 | h1
      · exact noErr_runIndex o di ci ii t c idx st l h1
      · exact ih (ii + 1) _ l h1

/-- One collection's prints never start with `Errors: `. -/
theorem noErr_runColl (o : FailOracle) (di ci : Nat) (t : String)
    (coll : CollectionSchema) (st : ApplyState) :
    ∀ l ∈ (runColl o di ci t coll st).1, startsWithB l "Errors: " = false := by
  intro l hl
  rw [runColl] at hl
  rcases List.mem_cons.mp hl with h1 | h1
  · subst h1
    exact startsWith_err_false "   📄 Creating collection: " _ (by decide) (by decide)
  rcases List.mem_append.mp h1 with h2 | h2
  · rcases h3 : o.coll di ci with _ | m <;> rw [h3] at h2 <;> revert h2
    · by_cases hs : coll.is_sharded <;> simp [hs] <;>
        (intro h4; subst h4; decide)
    · simp only [List.mem_cons, List.not_mem_nil, or_false]
      intro h4
      subst h4
      exact startsWith_err_false "      ❌ Error: " _ (by decide) (by decide)
  · exact noErr_runIdxLoop o di ci t coll.name coll.indexes 0 _ l h2

/-- The collection loop's prints never start with `Errors: `. -/
theorem noErr_runCollLoop (o : FailOracle) (di : Nat) (t : String) :
    ∀ (colls : List CollectionSchema) (ci : Nat) (st : ApplyState),
      ∀ l ∈ (runCollLoop o di t ci st colls).1,
        startsWithB l "Errors: " = false := by
  intro colls
  induction colls with
  | nil => intro ci st l hl; cases hl
  | cons c rest ih =>
    intro ci st l hl
    rw [runCollLoop] at hl
    rcases List.mem_append.mp hl with h1 | h1
    · exact noErr_runColl o di ci t c _ l h1
    · exact ih (ci + 1) _ l h1

/-- One database's prints never start with `Errors: `. -/
theorem noErr_runDb (o : FailOracle) (dbPfx : String) (di : Nat)
    (db : DatabaseSchema) (st : ApplyState) :
    ∀ l ∈ (runDb o dbPfx di db st).1, startsWithB l "Errors: " = false := by
  intro l hl
  rw [runDb] at hl
  rcases List.mem_cons.mp hl with h1 | h1
  · subst h1
    exact startsWith_err_false "\n📁 Database: " _ (by decide) (by decide)
  rcases List.mem_append.mp h1 with h2 | h2
  · revert h2
    by_cases hs : db.collections.any (fun c => c.is_sharded) <;> simp only [hs]
    · rcases h3 : o.enable di with _ | m <;>
        simp only [Bool.true_eq, if_true, h3, List.mem_cons, List.not_mem_nil,
          or_false, if_pos]
      · intro h4; subst h4; decide
      · intro h4
        subst h4
        exact startsWith_err_false "   ⚠️  Could not enable sharding: " _
          (by decide) (by decide)
    · intro h4
      simp at h4
  · exact noErr_runCollLoop o di _ db.collections 0 st l h2

/-- The database loop's prints never start with `Errors: `. -/
theorem noErr_runDbLoop (o : FailOracle) (dbPfx : String) :
    ∀ (dbs : List DatabaseSchema) (di : Nat) (st : ApplyState),
      ∀ l ∈ (runDbLoop o dbPfx di st dbs).1,
        startsWithB l "Errors: " = false := by
  intro dbs
  induction dbs with
  | nil => intro di st l hl; cases hl
  | cons db rest ih =>
    intro di st l hl
    rw [runDbLoop] at hl
    rcases List.mem_append.mp hl with h1 | h1
    · exact noErr_runDb o dbPfx di db st l h1
    · exact ih (di + 1) _ l h1

/-- With an empty error list, the summary prints never start with
`Errors: `. -/
theorem noErr_runFooter (st : ApplyState) (he : st.errors = []) :
    ∀ l ∈ runFooter st, startsWithB l "Errors: " = false := by
  intro l hl
  rw [runFooter, he] at hl
  simp only [List.length_nil, gt_iff_lt, Nat.lt_irrefl, if_false,
    List.nil_append, List.mem_append, List.mem_cons, List.not_mem_nil,
    or_false] at hl
  rcases hl with (h|h|h|h|h|h|h)|h <;> subst h
  · decide
  · decide
  · decide
  · decide
  · exact startsWith_err_false "Databases Created: " _ (by decide) (by decide)
  · exact startsWith_err_false "Collections Created: " _ (by decide) (by decide)
  · exact startsWith_err_false "Indexes Created: " _ (by decide) (by decide)
  · decide

/-- Claim C2 (amended): the output of every run of the generated script ends
with the summary block — the three `Created` counters always, and the
`Errors: N` line followed by one error record per line only when at least
one error was recorded; the output of a zero-error run contains no
`Errors:` line anywhere. -/
theorem c2_summary_footer (schema : SchemaSnapshot) (dbPfx : String)
    (o : FailOracle) :
    (∃ pre, (runApplyScript schema dbPfx o).1 = pre
      ++ (["",
           sepLine,
           "Schema Application Complete",
           sepLine,
           "Databases Created: " ++ toString (runApplyScript schema dbPfx o).2.databases,
           "Collections Created: " ++ toString (runApplyScript schema dbPfx o).2.collections,
           "Indexes Created: " ++ toString (runApplyScript schema dbPfx o).2.indexes]
          ++ (if (runApplyScript schema dbPfx o).2.errors.length > 0 then
                ("Errors: " ++ toString (runApplyScript schema dbPfx o).2.errors.length)
                  :: "" :: "Error Details:"
                  :: (runApplyScript schema dbPfx o).2.errors.map
                      (fun e => "  - " ++ errJson e)
              else [])
          ++ [sepLine]))
    ∧ ((runApplyScript schema dbPfx o).2.errors = [] →
        ∀ l ∈ (runApplyScript schema dbPfx o).1,
          startsWithB l "Errors: " = false) := by
  constructor
  · exact ⟨runHeader schema.databases.length dbPfx
      ++ (runDbLoop o dbPfx 0 (ApplyState.mk 0 0 0 []) schema.databases).1,
      by simp [runApplyScript, runFooter, List.append_assoc]⟩
  · intro he l hl
    rw [runApplyScript] at hl
    rcases List.mem_append.mp hl with h1 | h1
    · rcases List.mem_append.mp h1 with h2 | h2
      · exact noErr_runHeader _ _ l h2
      · exact noErr_runDbLoop o dbPfx _ 0 _ l h2
    · refine noErr_runFooter _ ?_ l h1
      exact he

/-- Claim C2, counterexample: a run of the generated script for a one-
database snapshot in which every statement succeeds records zero errors, and
its printed output contains no `Errors:` line at all — the script's summary
prints `Errors: N` only inside the `if (results.errors.length > 0)` guard,
so a zero-error run does not end with the claimed four-counter footer. -/
theorem c2_counterexample :
    (runApplyScript wSchema "" okOracle).2.errors = []
    ∧ (runApplyScript wSchema "" okOracle).1.all
        (fun l => !(startsWithB l "Errors: ")) = true := by
  constructor
  · rfl
  · decide

/-- Witness for C2 at a concrete zero-error run: the footer decomposition
holds and no printed line starts with `Errors: `. -/
theorem c2_witness :
    (∃ pre, (runApplyScript wSchema "pfx_" okOracle).1 = pre
      ++ (["",
           sepLine,
           "Schema Application Complete",
           sepLine,
           "Databases Created: "
             ++ toString (runApplyScript wSchema "pfx_" okOracle).2.databases,
           "Collections Created: "
             ++ toString (runApplyScript wSchema "pfx_" okOracle).2.collections,
           "Indexes Created: "
             ++ toString (runApplyScript wSchema "pfx_" okOracle).2.indexes]
          ++ (if (runApplyScript wSchema "pfx_" okOracle).2.errors.length > 0 then
                ("Errors: "
                  ++ toString (runApplyScript wSchema "pfx_" okOracle).2.errors.length)
                  :: "" :: "Error Details:"
                  :: (runApplyScript wSchema "pfx_" okOracle).2.errors.map
                      (fun e => "  - " ++ errJson e)
              else [])
          ++ [sepLine]))
    ∧ (∀ l ∈ (runApplyScript wSchema "pfx_" okOracle).1,
        startsWithB l "Errors: " = false) :=
  ⟨(c2_summary_footer wSchema "pfx_" okOracle).1,
   fun l hl => (c2_summary_footer wSchema "pfx_" okOracle).2 (by decide) l hl⟩

/-! ### Counting the enableSharding command (C4) -/

/-- General form of the prefix-discrimination step. -/
theorem startsWithB_false_at (p lit x : String) (k : Nat)
    (h1 : k < p.data.length) (h2 : k < lit.data.length)
    (hne : p.data.get ⟨k, h1⟩ ≠ lit.data.get ⟨k, h2⟩) :
    startsWithB (lit ++ x) p = false := by
  unfold startsWithB
  rw [String.data_append]
  exact isPrefixB_ne_at k _ _ _ h1 h2 hne

/-- A list is a prefix of itself followed by anything. -/
theorem isPrefixB_append_self : ∀ (p x : List Char), isPrefixB p (p ++ x) = true := by
  intro p
  induction p with
  | nil => intro x; rfl
  | cons a as ih => intro x; simp [isPrefixB, ih]

/-- Every enableSharding command starts with the fixed invocation prefix. -/
theorem startsWithB_enableCmd (t : String) :
    startsWithB (enableCmd t) "    adminDb.runCommand(\x7b enableSharding: '" = true := by
  unfold startsWithB enableCmd
  rw [String.data_append]
  exact isPrefixB_append_self _ _

/-- A line that does not start with the enableSharding invocation prefix is
not an enableSharding command. -/
theorem not_mem_enableCmd (t : String) {L : List String}
    (h : ∀ l ∈ L, startsWithB l "    adminDb.runCommand(\x7b enableSharding: '" = false) :
    enableCmd t ∉ L := by
  intro hm
  have h2 := h _ hm
  rw [startsWithB_enableCmd t] at h2
  cases h2

/-- No preamble line starts with the enableSharding prefix. -/
theorem noEsh_headerLines (n : Nat) (dbPfx : String) :
    ∀ l ∈ headerLines n dbPfx,
      startsWithB l "    adminDb.runCommand(\x7b enableSharding: '" = false := by
  intro l hl
  simp only [headerLines, List.mem_cons, List.not_mem_nil, or_false] at hl
  rcases hl with h|h|h|h|h|h|h|h|h|h|h|h|h <;> subst h <;>
    first
      | decide
      | exact startsWithB_false_at _ "print('Total Databases: " _ 0
          (by decide) (by decide) (by decide)
      | exact startsWithB_false_at _ "print('Database Prefix: " _ 0
          (by decide) (by decide) (by decide)

/-- No database-header line starts with the enableSharding prefix. -/
theorem noEsh_dbHeaderLines (t : String) :
    ∀ l ∈ dbHeaderLines t,
      startsWithB l "    adminDb.runCommand(\x7b enableSharding: '" = false := by
  intro l hl
  simp only [dbHeaderLines, List.mem_cons, List.not_mem_nil, or_false] at hl
  rcases hl with h|h|h|h <;> subst h <;>
    first
      | decide
      | exact startsWithB_false_at _ "// Database: " _ 0
          (by decide) (by decide) (by decide)
      | exact startsWithB_false_at _ "print('\\n📁 Database: " _ 0
          (by decide) (by decide) (by decide)
      | exact startsWithB_false_at _ "var targetDb = db.getSiblingDB('" _ 0
          (by decide) (by decide) (by decide)

/-- No sharded-collection block line starts with the enableSharding prefix. -/
theorem noEsh_shardedCollLines (t c skj : String) :
    ∀ l ∈ shardedCollLines t c skj,
      startsWithB l "    adminDb.runCommand(\x7b enableSharding: '" = false := by
  intro l hl
  simp only [shardedCollLines, List.mem_cons, List.not_mem_nil, or_false] at hl
  rcases hl with h|h|h|h|h|h|h|h|h|h|h|h <;> subst h <;>
    first
      | decide
      | exact startsWithB_false_at _ "// Shard collection with key: " _ 0
          (by decide) (by decide) (by decide)
      | exact startsWithB_false_at _ "    targetDb.createCollection('" _ 4
          (by decide) (by decide) (by decide)
      | exact startsWithB_false_at _ "    adminDb.runCommand(\x7b shardCollection: '" _ 25
          (by decide) (by decide) (by decide)
      | exact startsWithB_false_at _ "    results.errors.push(\x7b db: '" _ 4
          (by decide) (by decide) (by decide)

/-- No unsharded-collection block line starts with the enableSharding
prefix. -/
theorem noEsh_unshardedCollLines (t c : String) :
    ∀ l ∈ unshardedCollLines t c,
      startsWithB l "    adminDb.runCommand(\x7b enableSharding: '" = false := by
  intro l hl
  simp only [unshardedCollLines, List.mem_cons, List.not_mem_nil, or_false] at hl
  rcases hl with h|h|h|h|h|h|h|h|h <;> subst h <;>
    first
      | decide
      | exact startsWithB_false_at _ "    targetDb.createCollection('" _ 4
          (by decide) (by decide) (by decide)
      | exact startsWithB_false_at _ "    results.errors.push(\x7b db: '" _ 4
          (by decide) (by decide) (by decide)

/-- No create-index block line starts with the enableSharding prefix. -/
theorem noEsh_indexBlockLines (t c : String) (idx : IndexSchema) :
    ∀ l ∈ indexBlockLines t c idx,
      startsWithB l "    adminDb.runCommand(\x7b enableSharding: '" = false := by
  intro l hl
  simp only [indexBlockLines, createIndexLine, List.mem_cons, List.not_mem_nil,
    or_false] at hl
  rcases hl with h|h|h|h|h|h|h|h|h <;> subst h <;>
    first
      | decide
      | exact startsWithB_false_at _ "       targetDb." _ 4
          (by decide) (by decide) (by decide)
      | exact startsWithB_false_at _ "       print('      ✅ Index: " _ 4
          (by decide) (by decide) (by decide)
      | exact startsWithB_false_at _ "       print('      ❌ Index " _ 4
          (by decide) (by decide) (by decide)
      | exact startsWithB_false_at _ "       results.errors.push(\x7b db: '" _ 4
          (by decide) (by decide) (by decide)

/-- No index-loop line starts with the enableSharding prefix. -/
theorem noEsh_indexLoop (t c : String) :
    ∀ (idxs : List IndexSchema), ∀ l ∈ indexLoop t c idxs,
      startsWithB l "    adminDb.runCommand(\x7b enableSharding: '" = false := by
  intro idxs
  induction idxs with
  | nil => intro l hl; cases hl
  | cons idx rest ih =>
    intro l hl
    rw [indexLoop] at hl
    rcases List.mem_append.mp hl with h1 | h1
    · by_cases h : idx.name = "_id_"
      · rw [if_pos h] at h1; cases h1
      · rw [if_neg h] at h1
        exact noEsh_indexBlockLines t c idx l h1
    · exact ih l h1

/-- No index-section line starts with the enableSharding prefix. -/
theorem noEsh_indexSection (t : String) (coll : CollectionSchema) :
    ∀ l ∈ indexSection t coll,
      startsWithB l "    adminDb.runCommand(\x7b enableSharding: '" = false := by
  intro l hl
  rw [indexSection] at hl
  by_cases h : coll.indexes.isEmpty
  · rw [if_pos h] at hl; cases hl
  · rw [if_neg h] at hl
    rcases List.mem_cons.mp hl with h1 | h1
    · subst h1
      exact startsWithB_false_at _ "   // Creating " _ 3
        (by decide) (by decide) (by decide)
    · rcases List.mem_append.mp h1 with h2 | h2
      · exact noEsh_indexLoop t coll.name _ l h2
      · simp only [List.mem_cons, List.not_mem_nil, or_false] at h2
        subst h2; decide

/-- No collection-block line starts with the enableSharding prefix. -/
theorem noEsh_collLines (t : String) (coll : CollectionSchema) :
    ∀ l ∈ collLines t coll,
      startsWithB l "    adminDb.runCommand(\x7b enableSharding: '" = false := by
  intro l hl
  rw [collLines] at hl
  rcases List.mem_append.mp hl with h1 | h1
  · rcases List.mem_append.mp h1 with h2 | h2
    · simp only [List.mem_cons, List.not_mem_nil, or_false] at h2
      rcases h2 with h|h|h <;> subst h <;>
        first
          | decide
          | exact startsWithB_false_at _ "// Collection: " _ 0
              (by decide) (by decide) (by decide)
          | exact startsWithB_false_at _ "print('   📄 Creating collection: " _ 0
              (by decide) (by decide) (by decide)
    · by_cases hs : coll.is_sharded
      · rw [if_pos hs] at h2
        exact noEsh_shardedCollLines t coll.name _ l h2
      · rw [if_neg hs] at h2
        exact noEsh_unshardedCollLines t coll.name l h2
  · exact noEsh_indexSection t coll l h1

/-- No collection-loop line starts with the enableSharding prefix. -/
theorem noEsh_collLoop (t : String) :
    ∀ (colls : List CollectionSchema), ∀ l ∈ collLoop t colls,
      startsWithB l "    adminDb.runCommand(\x7b enableSharding: '" = false := by
  intro colls
  induction colls with
  | nil => intro l hl; cases hl
  | cons c rest ih =>
    intro l hl
    rw [collLoop] at hl
    rcases List.mem_append.mp hl with h1 | h1
    · exact noEsh_collLines t c l h1
    · exact ih l h1

/-- The enableSharding command determines its database name. -/
theorem enableCmd_inj {a b : String} (h : enableCmd a = enableCmd b) : a = b := by
  have hd := congrArg String.data h
  simp only [enableCmd, String.data_append] at hd
  exact String.ext (List.append_cancel_right (List.append_cancel_left hd))

/-- Prefixed database names are distinct for distinct names. -/
theorem targetName_inj (dbPfx : String) {a b : String}
    (h : targetName dbPfx a = targetName dbPfx b) : a = b := by
  unfold targetName at h
  by_cases hp : dbPfx = ""
  · simpa [hp] using h
  · rw [if_neg hp, if_neg hp] at h
    have hd := congrArg String.data h
    rw [String.data_append, String.data_append] at hd
    exact String.ext (List.append_cancel_left hd)

/-- The enable-sharding block contains the command for its own database
exactly once, and no other database's command. -/
theorem count_enable_enableShardingLines (t u : String) :
    (enableShardingLines u).count (enableCmd t) = if u = t then 1 else 0 := by
  have hA : enableCmd t ∉ ["// Enable sharding on database", "try \x7b",
      "    var adminDb = db.getSiblingDB('admin');"] :=
    not_mem_enableCmd t (by decide)
  have hB : enableCmd t ∉ ["    print('   ✅ Sharding enabled on database');",
      "\x7d catch(e) \x7b", "    // May already be enabled or not supported",
      "    print('   ⚠️  Could not enable sharding: ' + e.message);", "\x7d", ""] :=
    not_mem_enableCmd t (by decide)
  have he : enableShardingLines u
      = ["// Enable sharding on database", "try \x7b",
         "    var adminDb = db.getSiblingDB('admin');"]
        ++ (enableCmd u :: ["    print('   ✅ Sharding enabled on database');",
         "\x7d catch(e) \x7b", "    // May already be enabled or not supported",
         "    print('   ⚠️  Could not enable sharding: ' + e.message);", "\x7d", ""]) := rfl
  rw [he, List.count_append, List.count_eq_zero_of_not_mem hA, List.count_cons,
    List.count_eq_zero_of_not_mem hB]
  by_cases h : u = t
  · subst h; simp
  · have hne : ¬ (enableCmd u = enableCmd t) := fun hc => h (enableCmd_inj hc)
    simp [h, hne]

/-- A database block contains the enableSharding command for `t` exactly when
it is that database's block and the database has a sharded collection. -/
theorem count_enable_dbLines (dbPfx t : String) (db : DatabaseSchema) :
    (dbLines dbPfx db).count (enableCmd t)
      = if targetName dbPfx db.database = t
            ∧ db.collections.any (fun c => c.is_sharded) = true
        then 1 else 0 := by
  have h1 : (dbHeaderLines (targetName dbPfx db.database)).count (enableCmd t) = 0 :=
    List.count_eq_zero_of_not_mem (not_mem_enableCmd t (noEsh_dbHeaderLines _))
  have h2 : (collLoop (targetName dbPfx db.database) db.collections).count
      (enableCmd t) = 0 :=
    List.count_eq_zero_of_not_mem (not_mem_enableCmd t (noEsh_collLoop _ _))
  have h3 : (["results.databases++;", ""] : List String).count (enableCmd t) = 0 :=
    List.count_eq_zero_of_not_mem (not_mem_enableCmd t (by decide))
  rw [dbLines, List.count_append, List.count_append, List.count_append, h1, h2, h3]
  by_cases hs : db.collections.any (fun c => c.is_sharded)
  · rw [if_pos hs, count_enable_enableShardingLines]
    by_cases ht : targetName dbPfx db.database = t
    · simp [ht, hs]
    · simp [ht, hs]
  · simp [hs]

/-- Summing the per-database contributions over the database loop. -/
theorem count_enable_dbLoop (dbPfx t : String) :
    ∀ dbs : List DatabaseSchema,
      (dbLoop dbPfx dbs).count (enableCmd t)
        = (dbs.map (fun db =>
            if targetName dbPfx db.database = t
                ∧ db.collections.any (fun c => c.is_sharded) = true
            then 1 else 0)).sum := by
  intro dbs
  induction dbs with
  | nil => rfl
  | cons d rest ih =>
    rw [dbLoop, List.count_append, ih, List.map_cons, List.sum_cons,
      count_enable_dbLines]

/-- The whole generated script counts enableSharding commands exactly as the
database loop does. -/
theorem count_enable_scriptLines (schema : SchemaSnapshot) (dbPfx t : String) :
    (scriptLines schema dbPfx).count (enableCmd t)
      = (schema.databases.map (fun db =>
          if targetName dbPfx db.database = t
              ∧ db.collections.any (fun c => c.is_sharded) = true
          then 1 else 0)).sum := by
  have h1 : (headerLines schema.databases.length dbPfx).count (enableCmd t) = 0 :=
    List.count_eq_zero_of_not_mem (not_mem_enableCmd t (noEsh_headerLines _ _))
  have h2 : footerLines.count (enableCmd t) = 0 :=
    List.count_eq_zero_of_not_mem (not_mem_enableCmd t (by decide))
  rw [scriptLines, List.count_append, List.count_append, h1, h2,
    count_enable_dbLoop]
  omega

/-- With distinct database names, the summed contributions collapse to the
one database under consideration. -/
theorem sum_enable_unique (dbPfx : String) (db : DatabaseSchema) :
    ∀ dbs : List DatabaseSchema, db ∈ dbs →
      (dbs.map (fun d => d.database)).Nodup →
      (dbs.map (fun d =>
          if targetName dbPfx d.database = targetName dbPfx db.database
              ∧ d.collections.any (fun c => c.is_sharded) = true
          then 1 else 0)).sum
        = if db.collections.any (fun c => c.is_sharded) = true then 1 else 0 := by
  intro dbs
  induction dbs with
  | nil => intro h; cases h
  | cons d rest ih =>
    intro hmem hnd
    rw [List.map_cons] at hnd
    have hnd2 := List.nodup_cons.mp hnd
    rw [List.map_cons, List.sum_cons]
    rcases List.mem_cons.mp hmem with h1 | h1
    · subst h1
      have hrest : (rest.map (fun d =>
          if targetName dbPfx d.database = targetName dbPfx db.database
              ∧ d.collections.any (fun c => c.is_sharded) = true
          then 1 else 0)).sum = 0 := by
        apply List.sum_eq_zero
        intro x hx
        rcases List.mem_map.mp hx with ⟨d2, hd2, he⟩
        have hne : targetName dbPfx d2.database ≠ targetName dbPfx db.database := by
          intro hc
          exact hnd2.1 (List.mem_map.mpr ⟨d2, hd2, targetName_inj dbPfx hc⟩)
        rw [if_neg (fun hc => hne hc.1)] at he
        exact he.symm
      rw [hrest]
      by_cases hs : db.collections.any (fun c => c.is_sharded) <;> simp [hs]
    · have hne : targetName dbPfx d.database ≠ targetName dbPfx db.database := by
        intro hc
        exact hnd2.1 (by
          have : d.database = db.database := targetName_inj dbPfx hc
          rw [this]
          exact List.mem_map.mpr ⟨db, h1, rfl⟩)
      rw [if_neg (fun hc => hne hc.1), Nat.zero_add]
      exact ih h1 hnd2.2

/-- Claim C4: for every database of a snapshot with distinct database names,
the generated script contains the database-level enableSharding command for
that database exactly when one of its collections is sharded — and then
exactly once, placed inside the database's block before any of its
collection commands; a database with only unsharded collections gets none. -/
theorem c4_enable_sharding_once (schema : SchemaSnapshot) (dbPfx : String)
    (db : DatabaseSchema) (hdb : db ∈ schema.databases)
    (hnd : (schema.databases.map (fun d => d.database)).Nodup) :
    (scriptLines schema dbPfx).count (enableCmd (targetName dbPfx db.database))
      = (if db.collections.any (fun c => c.is_sharded) = true then 1 else 0)
    ∧ ∃ pre post, scriptLines schema dbPfx
        = pre ++ (dbHeaderLines (targetName dbPfx db.database)
            ++ ((if db.collections.any (fun c => c.is_sharded)
                 then enableShardingLines (targetName dbPfx db.database) else [])
              ++ (collLoop (targetName dbPfx db.database) db.collections
                ++ ["results.databases++;", ""]))) ++ post := by
  constructor
  · rw [count_enable_scriptLines]
    exact sum_enable_unique dbPfx db schema.databases hdb hnd
  · obtain ⟨p, q, e⟩ := seg_scriptLines_db dbPfx hdb
    exact ⟨p, q, by rw [e]; simp [dbLines, List.append_assoc]⟩

/-- Witness for C4 on the sample snapshot: `mobile_apps` has a sharded
collection and its enableSharding command appears exactly once. -/
theorem c4_witness :
    (scriptLines wSchema "pfx_").count (enableCmd (targetName "pfx_" wDb.database))
      = (if wDb.collections.any (fun c => c.is_sharded) = true then 1 else 0)
    ∧ ∃ pre post, scriptLines wSchema "pfx_"
        = pre ++ (dbHeaderLines (targetName "pfx_" wDb.database)
            ++ ((if wDb.collections.any (fun c => c.is_sharded)
                 then enableShardingLines (targetName "pfx_" wDb.database) else [])
              ++ (collLoop (targetName "pfx_" wDb.database) wDb.collections
                ++ ["results.databases++;", ""]))) ++ post :=
  c4_enable_sharding_once wSchema "pfx_" wDb (by decide) (by decide)

/-! ### Splitting lemmas for `mask_password` (C8) -/

/-- A prefix of the remainder witnesses a substring. -/
theorem isInfixB_of_split (n : List Char) :
    ∀ (A B : List Char), isPrefixB n B = true → isInfixB n (A ++ B) = true := by
  intro A
  induction A with
  | nil =>
    intro B h
    cases B with
    | nil => exact h
    | cons c r => simp [isInfixB, h]
  | cons a A2 ih =>
    intro B h
    simp [isInfixB, ih B h]

/-- `splitChar` never returns the empty list of chunks. -/
theorem splitChar_ne_nil (sep : Char) : ∀ l : List Char, splitChar sep l ≠ [] := by
  intro l
  induction l with
  | nil => simp [splitChar]
  | cons c rest ih =>
    by_cases h : c = sep
    · simp [splitChar, h]
    · rw [splitChar, if_neg h]
      rcases hs : splitChar sep rest with _ | ⟨a, b⟩ <;> simp [consHead]

/-- Splitting at the first separator occurrence. -/
theorem splitChar_append (sep : Char) :
    ∀ (A B : List Char), (∀ c ∈ A, c ≠ sep) →
      splitChar sep (A ++ sep :: B) = A :: splitChar sep B := by
  intro A
  induction A with
  | nil => intro B _; simp [splitChar]
  | cons a A2 ih =>
    intro B h
    have ha : a ≠ sep := h a (by simp)
    rw [List.cons_append, splitChar, if_neg ha,
      ih B (fun c hc => h c (by simp [hc])), consHead]

/-- The first chunk of a split is the run of non-separator characters. -/
theorem splitChar_head (sep : Char) :
    ∀ l : List Char, (splitChar sep l).headD []
      = l.takeWhile (fun c => !(c = sep)) := by
  intro l
  induction l with
  | nil => rfl
  | cons c rest ih =>
    by_cases h : c = sep
    · simp [splitChar, h, List.takeWhile_cons]
    · rw [splitChar, if_neg h]
      rcases hs : splitChar sep rest with _ | ⟨a, b⟩
      · exact absurd hs (splitChar_ne_nil sep rest)
      · rw [hs] at ih
        simp only [List.headD_cons] at ih
        simp [consHead, List.takeWhile_cons, h, ih]

/-- `l.getD 0` is `l.headD`. -/
theorem getD_zero_headD (l : List (List Char)) : l.getD 0 [] = l.headD [] := by
  cases l <;> rfl

/-- A slash-free list is one chunk under `split("//")`. -/
theorem splitStr2_nosep :
    ∀ l : List Char, (∀ c ∈ l, c ≠ '/') → splitStr2 '/' '/' l = [l] := by
  intro l
  induction l with
  | nil => intro _; rfl
  | cons c rest ih =>
    intro h
    cases rest with
    | nil => rfl
    | cons d rest2 =>
      have hc : c ≠ '/' := h c (by simp)
      rw [splitStr2, if_neg (fun hcd => hc hcd.1),
        ih (fun x hx => h x (by simp [hx])), consHead]

/-- Splitting at the first `//` occurrence when the head is slash-free. -/
theorem splitStr2_lit :
    ∀ A : List Char, (∀ c ∈ A, c ≠ '/') → ∀ X : List Char,
      splitStr2 '/' '/' (A ++ '/' :: '/' :: X) = A :: splitStr2 '/' '/' X := by
  intro A
  induction A with
  | nil =>
    intro _ X
    rw [List.nil_append, splitStr2, if_pos ⟨rfl, rfl⟩]
  | cons a A2 ih =>
    intro h X
    have ha : a ≠ '/' := h a (by simp)
    have ih2 := ih (fun c hc => h c (by simp [hc])) X
    rcases hA : A2 ++ '/' :: '/' :: X with _ | ⟨d, rest⟩
    · exact absurd hA (by simp)
    · rw [List.cons_append, hA, splitStr2, if_neg (fun hcd => ha hcd.1),
        ← hA, ih2, consHead]

/-- `takeWhile` stops exactly at the first failing element. -/
theorem takeWhile_middle (p : Char → Bool) :
    ∀ (A : List Char) (x : Char) (B : List Char),
      (∀ c ∈ A, p c = true) → p x = false →
      (A ++ x :: B).takeWhile p = A := by
  intro A
  induction A with
  | nil => intro x B _ hx; simp [List.takeWhile_cons, hx]
  | cons a A2 ih =>
    intro x B h hx
    have ha : p a = true := h a (by simp)
    simp [List.takeWhile_cons, ha, ih x B (fun c hc => h c (by simp [hc])) hx]

/-- Dropping a head segment and one more element. -/
theorem dropMid {α : Type} : ∀ (A : List α) (x : α) (B : List α),
    (A ++ x :: B).drop (A.length + 1) = B := by
  intro A
  induction A with
  | nil => intro x B; simp
  | cons a A2 ih => intro x B; simp [ih x B]

/-- `rsplit(sep, 1)` around the last separator occurrence. -/
theorem rsplit1_spec (Q P : List Char) (hP : ∀ c ∈ P, c ≠ ':') :
    rsplit1 ':' (Q ++ ':' :: P) = [Q, P] := by
  have hrev : (Q ++ ':' :: P).reverse = P.reverse ++ ':' :: Q.reverse := by
    simp
  have htw : (P.reverse ++ ':' :: Q.reverse).takeWhile (fun c => !(c = ':'))
      = P.reverse := by
    refine takeWhile_middle _ _ _ _ ?_ (by simp)
    intro c hc
    have := hP c (List.mem_reverse.mp hc)
    simp [this]
  have hlen : P.reverse.length ≠ (P.reverse ++ ':' :: Q.reverse).length := by
    simp
  have hdrop : (P.reverse ++ ':' :: Q.reverse).drop (P.reverse.length + 1)
      = Q.reverse := dropMid _ _ _
  unfold rsplit1
  rw [hrev]
  simp only [htw]
  rw [if_neg hlen, hdrop, List.reverse_reverse, List.reverse_reverse]

/-- Rebuilding a string from appended data. -/
theorem mk_data_append (a b : String) : String.mk (a.data ++ b.data) = a ++ b := by
  apply String.ext
  rw [String.data_append]

/-- Full behaviour of `mask_password` on a credentialed connection string
whose username and password are free of the characters `@`, `:` and `/`
(which the connection-string format requires to be percent-encoded): the
username is retained, the password is replaced by `***`, and the part after
the credentials is kept up to its first `@`. -/
theorem mask_password_spec (user pwd rest : String)
    (hu1 : ∀ c ∈ user.data, c ≠ '@') (hu2 : ∀ c ∈ user.data, c ≠ '/')
    (hp1 : ∀ c ∈ pwd.data, c ≠ '@') (hp2 : ∀ c ∈ pwd.data, c ≠ ':')
    (hp3 : ∀ c ∈ pwd.data, c ≠ '/') :
    mask_password ("mongodb://" ++ (user ++ (":" ++ (pwd ++ ("@" ++ rest)))))
      = "mongodb://" ++ (user ++ (":***@"
          ++ String.mk (rest.data.takeWhile (fun c => !(c = '@'))))) := by
  have hdata : ("mongodb://" ++ (user ++ (":" ++ (pwd ++ ("@" ++ rest))))).data
      = ("mongodb://".data ++ (user.data ++ (':' :: pwd.data))) ++ '@' :: rest.data := by
    have h1 : (":" : String).data = [':'] := rfl
    have h2 : ("@" : String).data = ['@'] := rfl
    simp [String.data_append, h1, h2, List.append_assoc]
  have hAmem : ∀ c ∈ "mongodb://".data ++ (user.data ++ (':' :: pwd.data)), c ≠ '@' := by
    have hm : ∀ c ∈ ("mongodb://" : String).data, c ≠ '@' := by decide
    intro c hc
    rcases List.mem_append.mp hc with h | h
    · exact hm c h
    · rcases List.mem_append.mp h with h | h
      · exact hu1 c h
      · rcases List.mem_cons.mp h with h | h
        · subst h; decide
        · exact hp1 c h
  have hsplit : splitChar '@'
        (("mongodb://" ++ (user ++ (":" ++ (pwd ++ ("@" ++ rest))))).data)
      = ("mongodb://".data ++ (user.data ++ (':' :: pwd.data)))
          :: splitChar '@' rest.data := by
    rw [hdata]
    exact splitChar_append '@' _ _ hAmem
  have hc1 : containsSubstr ("mongodb://" ++ (user ++ (":" ++ (pwd ++ ("@" ++ rest))))) "@"
      = true := by
    unfold containsSubstr
    rw [hdata]
    have h2 : ("@" : String).data = ['@'] := rfl
    rw [h2]
    exact isInfixB_of_split _ _ _ (by simp [isPrefixB])
  have hinf : isInfixB "://".data
      ("mongodb://".data ++ (user.data ++ (':' :: pwd.data))) = true := by
    have he : ("mongodb://" : String).data ++ (user.data ++ (':' :: pwd.data))
        = "mongodb".data ++ (':' :: '/' :: '/' :: (user.data ++ (':' :: pwd.data))) := by
      have hm2 : ("mongodb://" : String).data = "mongodb".data ++ [':', '/', '/'] := by
        decide
      rw [hm2, List.append_assoc]
      rfl
    rw [he]
    refine isInfixB_of_split _ _ _ ?_
    show isPrefixB [':', '/', '/']
      (':' :: '/' :: '/' :: (user.data ++ (':' :: pwd.data))) = true
    simp [isPrefixB]
  have hlen2 : 2 ≤ (("mongodb://".data ++ (user.data ++ (':' :: pwd.data)))
      :: splitChar '@' rest.data).length := by
    have := List.length_pos.mpr (splitChar_ne_nil '@' rest.data)
    simp only [List.length_cons]
    omega
  have hX : ∀ c ∈ user.data ++ (':' :: pwd.data), c ≠ '/' := by
    intro c hc
    rcases List.mem_append.mp hc with h | h
    · exact hu2 c h
    · rcases List.mem_cons.mp h with h | h
      · subst h; decide
      · exact hp3 c h
  have hsplit2 : splitStr2 '/' '/'
        ("mongodb://".data ++ (user.data ++ (':' :: pwd.data)))
      = ["mongodb:".data, user.data ++ (':' :: pwd.data)] := by
    have he : ("mongodb://" : String).data ++ (user.data ++ (':' :: pwd.data))
        = "mongodb:".data ++ ('/' :: '/' :: (user.data ++ (':' :: pwd.data))) := by
      have hm2 : ("mongodb://" : String).data = "mongodb:".data ++ ['/', '/'] := by
        decide
      rw [hm2, List.append_assoc]
      rfl
    rw [he, splitStr2_lit "mongodb:".data (by decide) _, splitStr2_nosep _ hX]
  have hlast : (splitStr2 '/' '/'
        ("mongodb://".data ++ (user.data ++ (':' :: pwd.data)))).getLastD []
      = user.data ++ (':' :: pwd.data) := by
    rw [hsplit2]
    rfl
  have hinf2 : isInfixB ":".data (user.data ++ (':' :: pwd.data)) = true := by
    have h1 : (":" : String).data = [':'] := rfl
    rw [h1]
    exact isInfixB_of_split _ _ _ (by simp [isPrefixB])
  have hrs : rsplit1 ':' ("mongodb://".data ++ (user.data ++ (':' :: pwd.data)))
      = [("mongodb://".data ++ user.data), pwd.data] := by
    have h1 : "mongodb://".data ++ (user.data ++ (':' :: pwd.data))
        = ("mongodb://".data ++ user.data) ++ (':' :: pwd.data) := by
      rw [List.append_assoc]
    rw [h1]
    exact rsplit1_spec _ _ hp2
  have hgd : (splitChar '@' rest.data).getD 0 []
      = rest.data.takeWhile (fun c => !(c = '@')) := by
    rw [getD_zero_headD, splitChar_head]
  unfold mask_password
  rw [if_pos hc1]
  simp only [hsplit, List.headD_cons]
  rw [if_pos (And.intro hlen2 hinf)]
  rw [hlast, if_pos hinf2, hrs]
  simp only [List.headD_cons, List.getD_cons_succ]
  rw [hgd, mk_data_append, String.append_assoc]

/-- Claim C8 (amended): for connection strings whose username and password
are free of `@`, `:` and `/` (the characters the connection-string format
requires percent-encoded in credentials), the masked form retains the
username and replaces the password with the fixed `***` placeholder, and two
such strings differing only in the password mask to identical strings.  A
password containing an unencoded `:` or `@` is partially revealed (see the
counterexample). -/
theorem c8_password_masking (user pwd1 pwd2 rest : String)
    (hu1 : ∀ c ∈ user.data, c ≠ '@') (hu2 : ∀ c ∈ user.data, c ≠ '/')
    (hp11 : ∀ c ∈ pwd1.data, c ≠ '@') (hp12 : ∀ c ∈ pwd1.data, c ≠ ':')
    (hp13 : ∀ c ∈ pwd1.data, c ≠ '/')
    (hp21 : ∀ c ∈ pwd2.data, c ≠ '@') (hp22 : ∀ c ∈ pwd2.data, c ≠ ':')
    (hp23 : ∀ c ∈ pwd2.data, c ≠ '/') :
    mask_password ("mongodb://" ++ (user ++ (":" ++ (pwd1 ++ ("@" ++ rest)))))
      = "mongodb://" ++ (user ++ (":***@"
          ++ String.mk (rest.data.takeWhile (fun c => !(c = '@')))))
    ∧ mask_password ("mongodb://" ++ (user ++ (":" ++ (pwd1 ++ ("@" ++ rest)))))
      = mask_password ("mongodb://" ++ (user ++ (":" ++ (pwd2 ++ ("@" ++ rest))))) := by
  have h1 := mask_password_spec user pwd1 rest hu1 hu2 hp11 hp12 hp13
  have h2 := mask_password_spec user pwd2 rest hu1 hu2 hp21 hp22 hp23
  exact ⟨h1, h1.trans h2.symm⟩

/-- Witness for C8 at concrete inputs: two connection strings differing only
in their (well-encoded) passwords mask identically, with the username
retained and the password replaced by `***`. -/
theorem c8_witness :
    mask_password ("mongodb://" ++ ("admin" ++ (":" ++ ("secret1" ++ ("@" ++ "h1:27017/db")))))
      = "mongodb://" ++ ("admin" ++ (":***@"
          ++ String.mk (("h1:27017/db" : String).data.takeWhile (fun c => !(c = '@')))))
    ∧ mask_password ("mongodb://" ++ ("admin" ++ (":" ++ ("secret1" ++ ("@" ++ "h1:27017/db")))))
      = mask_password ("mongodb://" ++ ("admin" ++ (":" ++ ("secret2" ++ ("@" ++ "h1:27017/db"))))) :=
  c8_password_masking "admin" "secret1" "secret2" "h1:27017/db"
    (by decide) (by decide) (by decide) (by decide) (by decide)
    (by decide) (by decide) (by decide)

/-- Claim C8, counterexample: `mongodb://u:p@h` and `mongodb://u:a:b@h`
differ only in their password (`p` versus `a:b`), yet the masked outputs
differ — and the second output reveals `a`, part of the password, because
`rsplit(':', 1)` splits at the last colon. -/
theorem c8_counterexample :
    mask_password "mongodb://u:p@h" = "mongodb://u:***@h"
    ∧ mask_password "mongodb://u:a:b@h" = "mongodb://u:a:***@h"
    ∧ mask_password "mongodb://u:p@h" ≠ mask_password "mongodb://u:a:b@h" := by
  refine ⟨by decide, by decide, by decide⟩

/-! ### Association-list (Python dict) lemmas for the CSV merge (C6) -/

/-- Upserting stores the value under the key. -/
theorem pyGet_dictUpsert_self {α : Type} (k : String) (v : α) :
    ∀ l : List (String × α), pyGet (dictUpsert k v l) k = some v := by
  intro l
  induction l with
  | nil => simp [dictUpsert, pyGet]
  | cons kv rest ih =>
    by_cases h : kv.1 = k
    · simp [dictUpsert, h, pyGet]
    · simp [dictUpsert, h, pyGet, ih]

/-- Upserting leaves other keys untouched. -/
theorem pyGet_dictUpsert_ne {α : Type} (k k2 : String) (v : α) (hne : k2 ≠ k) :
    ∀ l : List (String × α), pyGet (dictUpsert k v l) k2 = pyGet l k2 := by
  intro l
  induction l with
  | nil =>
    have h0 : ¬ (k = k2) := fun h => hne h.symm
    simp [dictUpsert, pyGet, h0]
  | cons kv rest ih =>
    by_cases h : kv.1 = k
    · have h2 : ¬ (k = k2) := fun hc => hne hc.symm
      have h3 : ¬ (kv.1 = k2) := fun hc => h2 (h.symm.trans hc)
      simp [dictUpsert, h, pyGet, h2, h3]
    · simp only [dictUpsert, if_neg h, pyGet]
      by_cases h3 : kv.1 = k2 <;> simp [h3, ih]

/-- Key list after an upsert. -/
theorem keys_dictUpsert {α : Type} (k : String) (v : α) :
    ∀ l : List (String × α),
      (dictUpsert k v l).map Prod.fst
        = if k ∈ l.map Prod.fst then l.map Prod.fst else l.map Prod.fst ++ [k] := by
  intro l
  induction l with
  | nil => simp [dictUpsert]
  | cons kv rest ih =>
    by_cases h : kv.1 = k
    · simp [dictUpsert, h]
    · have h2 : ¬ (k = kv.1) := fun hc => h hc.symm
      simp only [dictUpsert, if_neg h, List.map_cons, List.mem_cons, h2,
        false_or, ih]
      by_cases h3 : k ∈ rest.map Prod.fst <;> simp [h3]

/-- Modification does not change the key list. -/
theorem keys_dictModify {α : Type} (k : String) (f : α → α) :
    ∀ l : List (String × α), (dictModify k f l).map Prod.fst = l.map Prod.fst := by
  intro l
  induction l with
  | nil => rfl
  | cons kv rest ih =>
    by_cases h : kv.1 = k <;> simp [dictModify, h, ih]

/-- Modification applies the function under the key. -/
theorem pyGet_dictModify_self {α : Type} (k : String) (f : α → α) :
    ∀ l : List (String × α), pyGet (dictModify k f l) k = (pyGet l k).map f := by
  intro l
  induction l with
  | nil => rfl
  | cons kv rest ih =>
    by_cases h : kv.1 = k <;> simp [dictModify, h, pyGet, ih]

/-- Modification leaves other keys untouched. -/
theorem pyGet_dictModify_ne {α : Type} (k k2 : String) (f : α → α) (hne : k2 ≠ k) :
    ∀ l : List (String × α), pyGet (dictModify k f l) k2 = pyGet l k2 := by
  intro l
  induction l with
  | nil => rfl
  | cons kv rest ih =>
    by_cases h : kv.1 = k
    · have h3 : ¬ (kv.1 = k2) := fun hc => hne (h.symm.trans hc).symm
      have h4 : ¬ (k = k2) := fun hc => hne hc.symm
      simp [dictModify, h, pyGet, h3, h4]
    · simp only [dictModify, if_neg h, pyGet]
      by_cases h3 : kv.1 = k2 <;> simp [h3, ih]

/-- Presence of a key is presence in the key list. -/
theorem pyGet_isSome_iff {α : Type} (k : String) :
    ∀ l : List (String × α), (pyGet l k).isSome = true ↔ k ∈ l.map Prod.fst := by
  intro l
  induction l with
  | nil => simp [pyGet]
  | cons kv rest ih =>
    by_cases h : kv.1 = k
    · simp [pyGet, h]
    · simp only [pyGet, if_neg h, List.map_cons, List.mem_cons]
      rw [ih]
      constructor
      · intro hx; exact Or.inr hx
      · rintro (hx | hx)
        · exact absurd hx.symm h
        · exact hx

/-- Lookup over an association list whose values were mapped. -/
theorem pyGet_map_value {α β : Type} (g : α → β) (k : String) :
    ∀ l : List (String × α),
      pyGet (l.map (fun kv => (kv.1, g kv.2))) k = (pyGet l k).map g := by
  intro l
  induction l with
  | nil => rfl
  | cons kv rest ih =>
    by_cases h : kv.1 = k <;> simp [pyGet, h, ih]

/-- Upserting preserves a per-entry invariant. -/
theorem dictUpsert_forall {α : Type} (P : String → α → Prop) (k : String) (v : α)
    (hv : P k v) :
    ∀ l : List (String × α), (∀ kv ∈ l, P kv.1 kv.2) →
      ∀ kv ∈ dictUpsert k v l, P kv.1 kv.2 := by
  intro l
  induction l with
  | nil =>
    intro _ kv hkv
    simp only [dictUpsert, List.mem_singleton] at hkv
    subst hkv
    exact hv
  | cons e rest ih =>
    intro h kv hkv
    by_cases he : e.1 = k
    · rw [dictUpsert, if_pos he] at hkv
      rcases List.mem_cons.mp hkv with h1 | h1
      · subst h1; exact hv
      · exact h kv (by simp [h1])
    · rw [dictUpsert, if_neg he] at hkv
      rcases List.mem_cons.mp hkv with h1 | h1
      · subst h1; exact h kv (by simp)
      · exact ih (fun e2 he2 => h e2 (by simp [he2])) kv h1

/-- Modification preserves a per-entry invariant when the function does. -/
theorem dictModify_forall {α : Type} (P : String → α → Prop) (k : String)
    (f : α → α) (hf : ∀ key v, P key v → P key (f v)) :
    ∀ l : List (String × α), (∀ kv ∈ l, P kv.1 kv.2) →
      ∀ kv ∈ dictModify k f l, P kv.1 kv.2 := by
  intro l
  induction l with
  | nil => intro _ kv hkv; cases hkv
  | cons e rest ih =>
    intro h kv hkv
    by_cases he : e.1 = k
    · rw [dictModify, if_pos he] at hkv
      rcases List.mem_cons.mp hkv with h1 | h1
      · subst h1; exact hf e.1 e.2 (h e (by simp))
      · exact h kv (by simp [h1])
    · rw [dictModify, if_neg he] at hkv
      rcases List.mem_cons.mp hkv with h1 | h1
      · subst h1; exact h kv (by simp)
      · exact ih (fun e2 he2 => h e2 (by simp [he2])) kv h1

/-- Upserting an absent key appends it. -/
theorem dictUpsert_not_mem {α : Type} (k : String) (v : α) :
    ∀ l : List (String × α), k ∉ l.map Prod.fst →
      dictUpsert k v l = l ++ [(k, v)] := by
  intro l
  induction l with
  | nil => intro _; rfl
  | cons e rest ih =>
    intro h
    simp only [List.map_cons, List.mem_cons, not_or] at h
    rw [dictUpsert, if_neg (fun hc => h.1 hc.symm), ih h.2, List.cons_append]

/-- Upserting preserves distinctness of keys. -/
theorem nodup_keys_dictUpsert {α : Type} (k : String) (v : α)
    (l : List (String × α)) (h : (l.map Prod.fst).Nodup) :
    ((dictUpsert k v l).map Prod.fst).Nodup := by
  rw [keys_dictUpsert]
  by_cases hm : k ∈ l.map Prod.fst
  · simp [hm, h]
  · simp [hm, List.nodup_append, h]

/-- Lookup in a header-zipped projected row. -/
theorem pyGet_zip_map (g : String → String) (f : String) :
    ∀ hdr : List String,
      pyGet (hdr.zip (hdr.map g)) f = if f ∈ hdr then some (g f) else none := by
  intro hdr
  induction hdr with
  | nil => simp [pyGet]
  | cons h t ih =>
    simp only [List.map_cons, List.zip_cons_cons]
    by_cases he : h = f
    · subst he; simp [pyGet]
    · have he2 : ¬ (f = h) := fun hc => he hc.symm
      simp [pyGet, he, he2, ih]

/-- Reading back a written table, with an accumulator. -/
theorem readRows_aux (hdr : List String) (hQD : "Query Description" ∈ hdr) :
    ∀ (data acc : List (String × Row)),
      (∀ kv ∈ data, rowGet kv.2 "Query Description" = some kv.1) →
      (∀ kv ∈ data, kv.1 ∉ acc.map Prod.fst) →
      (data.map Prod.fst).Nodup →
      (data.map (fun kv => hdr.map (fun f => rowGetD kv.2 f ""))).foldl
          (fun acc2 rec =>
            dictUpsert (rowGetD (hdr.zip rec) "Query Description" "")
              (hdr.zip rec) acc2)
          acc
        = acc ++ data.map (fun kv =>
            (kv.1, hdr.zip (hdr.map (fun f => rowGetD kv.2 f "")))) := by
  intro data
  induction data with
  | nil => intro acc _ _ _; simp
  | cons kv rest ih =>
    intro acc hrows hdisj hnd
    simp only [List.map_cons, List.foldl_cons]
    have hkey : rowGetD (hdr.zip (hdr.map (fun f => rowGetD kv.2 f "")))
        "Query Description" "" = kv.1 := by
      show (pyGet (hdr.zip (hdr.map (fun f => rowGetD kv.2 f "")))
        "Query Description").getD "" = kv.1
      rw [pyGet_zip_map, if_pos hQD]
      show rowGetD kv.2 "Query Description" "" = kv.1
      unfold rowGetD
      rw [hrows kv (by simp)]
      rfl
    rw [hkey, dictUpsert_not_mem _ _ acc (hdisj kv (by simp))]
    rw [List.map_cons] at hnd
    have hnd2 := List.nodup_cons.mp hnd
    rw [ih (acc ++ [(kv.1, hdr.zip (hdr.map (fun f => rowGetD kv.2 f "")))])
      (fun e he => hrows e (by simp [he]))
      (fun e he => by
        simp only [List.map_append, List.mem_append, List.map_cons,
          List.map_nil, List.mem_singleton, not_or]
        refine ⟨hdisj e (by simp [he]), fun hc => ?_⟩
        exact hnd2.1 (hc ▸ List.mem_map.mpr ⟨e, he, rfl⟩)
      ) hnd2.2]
    simp [List.append_assoc]

/-- Reading back a written table: the stored keyed rows are recovered, each
row normalized to the full header. -/
theorem readRows_writeTable (hdr : List String)
    (hQD : "Query Description" ∈ hdr) (data : List (String × Row))
    (hrows : ∀ kv ∈ data, rowGet kv.2 "Query Description" = some kv.1)
    (hnd : (data.map Prod.fst).Nodup) :
    readRows hdr (writeTable hdr data).records
      = data.map (fun kv =>
          (kv.1, hdr.zip (hdr.map (fun f => rowGetD kv.2 f "")))) := by
  unfold readRows writeTable
  exact readRows_aux hdr hQD data [] hrows (by simp) hnd

/-- Behaviour of the per-run update loop: keys stay distinct, every row keeps
its `Query Description` cell equal to its key, the key set grows by exactly
the new descriptions, and cells in columns other than the run column are
untouched for pre-existing rows. -/
theorem applyResults_spec (ch : String) (hch : ch ≠ "Query Description") :
    ∀ (rs : List QueryResult) (data : List (String × Row)),
      (data.map Prod.fst).Nodup →
      (∀ kv ∈ data, rowGet kv.2 "Query Description" = some kv.1) →
      ((applyResults ch rs data).map Prod.fst).Nodup
      ∧ (∀ kv ∈ applyResults ch rs data,
          rowGet kv.2 "Query Description" = some kv.1)
      ∧ (∀ k, k ∈ (applyResults ch rs data).map Prod.fst
          ↔ k ∈ data.map Prod.fst ∨ k ∈ rs.map QueryResult.description)
      ∧ (∀ k f, f ≠ ch → k ∈ data.map Prod.fst →
          (dataGet (applyResults ch rs data) k).bind (fun row => rowGet row f)
            = (dataGet data k).bind (fun row => rowGet row f)) := by
  intro rs
  induction rs with
  | nil =>
    intro data hnd hrows
    refine ⟨hnd, hrows, fun k => by simp [applyResults], fun k f _ _ => rfl⟩
  | cons res rest ih =>
    intro data hnd hrows
    by_cases hmem : res.description ∈ data.map Prod.fst
    · -- the description already has a row: only its run column is set
      have hsome : (dataGet data res.description).isSome = true :=
        (pyGet_isSome_iff res.description data).mpr hmem
      have hstep : applyResults ch (res :: rest) data
          = applyResults ch rest
              (dictModify res.description
                (fun row => dictUpsert ch
                  (if res.status = "SUCCESS" then res.time else "ERROR") row) data) := by
        simp only [applyResults, List.foldl_cons, hsome, if_true, dataModify]
      have hndD : ((dictModify res.description
          (fun row => dictUpsert ch
            (if res.status = "SUCCESS" then res.time else "ERROR") row)
          data).map Prod.fst).Nodup := by
        rw [keys_dictModify]; exact hnd
      have hrowsD : ∀ kv ∈ dictModify res.description
          (fun row => dictUpsert ch
            (if res.status = "SUCCESS" then res.time else "ERROR") row) data,
          rowGet kv.2 "Query Description" = some kv.1 := by
        refine dictModify_forall
          (fun key v => rowGet v "Query Description" = some key)
          res.description _ ?_ data hrows
        intro key v hv
        show pyGet (dictUpsert ch _ v) "Query Description" = some key
        rw [pyGet_dictUpsert_ne ch "Query Description" _ (Ne.symm hch)]
        exact hv
      obtain ⟨ihnd, ihrows, ihmem, ihpres⟩ := ih _ hndD hrowsD
      rw [hstep]
      refine ⟨ihnd, ihrows, ?_, ?_⟩
      · intro k
        rw [ihmem k, keys_dictModify, List.map_cons, List.mem_cons]
        have hx : k = res.description → k ∈ data.map Prod.fst := fun h => by
          rw [h]; exact hmem
        tauto
      · intro k f hf hk
        rw [ihpres k f hf (by rw [keys_dictModify]; exact hk)]
        by_cases hkd : k = res.description
        · show (pyGet (dictModify res.description _ data) k).bind _
            = (pyGet data k).bind _
          rw [hkd, pyGet_dictModify_self]
          rcases hrow : pyGet data res.description with _ | row
          · rfl
          · show (rowGet (dictUpsert ch _ row) f) = rowGet row f
            exact pyGet_dictUpsert_ne ch f _ hf row
        · show (pyGet (dictModify res.description _ data) k).bind _
            = (pyGet data k).bind _
          rw [pyGet_dictModify_ne res.description k _ hkd]
    · -- a fresh row is created for the description, then its run column set
      have hsome : (dataGet data res.description).isSome = false := by
        cases hs : (dataGet data res.description).isSome
        · rfl
        · exact absurd ((pyGet_isSome_iff res.description data).mp hs) hmem
      have hstep : applyResults ch (res :: rest) data
          = applyResults ch rest
              (dictModify res.description
                (fun row => dictUpsert ch
                  (if res.status = "SUCCESS" then res.time else "ERROR") row)
                (dictUpsert res.description
                  [("Query Description", res.description)] data)) := by
        simp only [applyResults, List.foldl_cons, hsome, Bool.false_eq_true,
          if_false, dataModify]
      have hkeysU : (dictUpsert res.description
          [("Query Description", res.description)] data).map Prod.fst
          = data.map Prod.fst ++ [res.description] := by
        rw [keys_dictUpsert, if_neg hmem]
      have hndD : ((dictModify res.description
          (fun row => dictUpsert ch
            (if res.status = "SUCCESS" then res.time else "ERROR") row)
          (dictUpsert res.description
            [("Query Description", res.description)] data)).map Prod.fst).Nodup := by
        rw [keys_dictModify]
        exact nodup_keys_dictUpsert _ _ _ hnd
      have hrowsD : ∀ kv ∈ dictModify res.description
          (fun row => dictUpsert ch
            (if res.status = "SUCCESS" then res.time else "ERROR") row)
          (dictUpsert res.description
            [("Query Description", res.description)] data),
          rowGet kv.2 "Query Description" = some kv.1 := by
        refine dictModify_forall
          (fun key v => rowGet v "Query Description" = some key)
          res.description _ ?_ _ ?_
        · intro key v hv
          show pyGet (dictUpsert ch _ v) "Query Description" = some key
          rw [pyGet_dictUpsert_ne ch "Query Description" _ (Ne.symm hch)]
          exact hv
        · refine dictUpsert_forall
            (fun key v => rowGet v "Query Description" = some key)
            res.description _ ?_ data hrows
          simp [rowGet, pyGet]
      obtain ⟨ihnd, ihrows, ihmem, ihpres⟩ := ih _ hndD hrowsD
      rw [hstep]
      refine ⟨ihnd, ihrows, ?_, ?_⟩
      · intro k
        rw [ihmem k, keys_dictModify, hkeysU, List.mem_append,
          List.mem_singleton, List.map_cons, List.mem_cons]
        tauto
      · intro k f hf hk
        have hkd : k ≠ res.description := fun hc => hmem (hc ▸ hk)
        rw [ihpres k f hf (by
          rw [keys_dictModify, hkeysU]
          exact List.mem_append_left _ hk)]
        show (pyGet (dictModify res.description _ _) k).bind _
          = (pyGet data k).bind _
        rw [pyGet_dictModify_ne res.description k _ hkd,
          pyGet_dictUpsert_ne res.description k _ hkd]

/-- Lookup over the keyed header-projections of stored rows. -/
theorem pyGet_map_proj (hdr : List String) (k : String) :
    ∀ l : List (String × Row),
      pyGet (l.map (fun kv =>
          (kv.1, hdr.zip (hdr.map (fun f => rowGetD kv.2 f ""))))) k
        = (pyGet l k).map
            (fun row => hdr.zip (hdr.map (fun f => rowGetD row f ""))) := by
  intro l
  induction l with
  | nil => rfl
  | cons kv rest ih =>
    by_cases h : kv.1 = k <;> simp [pyGet, h, ih]

/-- The row keys of a written table are the descriptions of its stored rows. -/
theorem tableDescs_writeTable (hdr : List String)
    (hQD : "Query Description" ∈ hdr) (data : List (String × Row))
    (hrows : ∀ kv ∈ data, rowGet kv.2 "Query Description" = some kv.1) :
    tableDescs (writeTable hdr data) = data.map Prod.fst := by
  unfold tableDescs writeTable
  simp only [List.map_map]
  refine List.map_congr_left ?_
  intro kv hkv
  show rowGetD (hdr.zip (hdr.map (fun f => rowGetD kv.2 f ""))) "Query Description" ""
    = kv.1
  show (pyGet (hdr.zip (hdr.map (fun f => rowGetD kv.2 f "")))
    "Query Description").getD "" = kv.1
  rw [pyGet_zip_map, if_pos hQD]
  show rowGetD kv.2 "Query Description" "" = kv.1
  unfold rowGetD
  rw [hrows kv hkv]
  rfl

/-- Cell lookup in a written table, in terms of the stored data. -/
theorem tableCell_writeTable (hdr : List String)
    (hQD : "Query Description" ∈ hdr) (data : List (String × Row))
    (hrows : ∀ kv ∈ data, rowGet kv.2 "Query Description" = some kv.1)
    (hnd : (data.map Prod.fst).Nodup) (d f : String) (hf : f ∈ hdr) :
    tableCell (writeTable hdr data) d f
      = (dataGet data d).map (fun row => rowGetD row f "") := by
  unfold tableCell
  show (pyGet (readRows hdr (writeTable hdr data).records) d).bind
      (fun row => rowGet row f)
    = (pyGet data d).map (fun row => rowGetD row f "")
  rw [readRows_writeTable hdr hQD data hrows hnd, pyGet_map_proj]
  cases h : pyGet data d with
  | none => rfl
  | some row =>
    show rowGet (hdr.zip (hdr.map (fun g => rowGetD row g ""))) f
      = some (rowGetD row f "")
    show pyGet (hdr.zip (hdr.map (fun g => rowGetD row g ""))) f
      = some (rowGetD row f "")
    rw [pyGet_zip_map, if_pos hf]

/-- Claim C6: running `save_results_to_csv` twice against the same output
path, first with run column `c1` and then with a distinct run column `c2`
(distinct run timestamps give distinct `collection_epoch` names, which never
equal `Query Description`), produces one table whose header is the
`Query Description` column plus one column per run, with exactly one row per
distinct query description; every row and every column of the first run is
still present after the second, and no first-run cell is overwritten. -/
theorem c6_csv_merge (c1 c2 : String) (r1 r2 : List QueryResult)
    (h1 : c1 ≠ "Query Description") (h2 : c2 ≠ "Query Description")
    (h12 : c1 ≠ c2) :
    (save_results_to_csv none c1 r1).header = ["Query Description", c1]
    ∧ (save_results_to_csv (some (save_results_to_csv none c1 r1)) c2 r2).header
        = ["Query Description", c1, c2]
    ∧ (tableDescs (save_results_to_csv (some (save_results_to_csv none c1 r1)) c2 r2)).Nodup
    ∧ (∀ d, d ∈ tableDescs (save_results_to_csv (some (save_results_to_csv none c1 r1)) c2 r2)
        ↔ d ∈ r1.map QueryResult.description ∨ d ∈ r2.map QueryResult.description)
    ∧ (∀ d, d ∈ tableDescs (save_results_to_csv none c1 r1) →
        d ∈ tableDescs (save_results_to_csv (some (save_results_to_csv none c1 r1)) c2 r2)
        ∧ tableCell (save_results_to_csv (some (save_results_to_csv none c1 r1)) c2 r2)
            d "Query Description"
          = tableCell (save_results_to_csv none c1 r1) d "Query Description"
        ∧ tableCell (save_results_to_csv (some (save_results_to_csv none c1 r1)) c2 r2) d c1
          = tableCell (save_results_to_csv none c1 r1) d c1) := by
  have e1 : save_results_to_csv none c1 r1
      = writeTable ["Query Description", c1] (applyResults c1 r1 []) := rfl
  have e2 : save_results_to_csv (some (save_results_to_csv none c1 r1)) c2 r2
      = writeTable ["Query Description", c1, c2]
          (applyResults c2 r2 (readRows ["Query Description", c1]
            (writeTable ["Query Description", c1] (applyResults c1 r1 [])).records)) := rfl
  obtain ⟨nd1, rows1, mem1, _⟩ :=
    applyResults_spec c1 h1 r1 [] (by simp) (by simp)
  have hread : readRows ["Query Description", c1]
        (writeTable ["Query Description", c1] (applyResults c1 r1 [])).records
      = (applyResults c1 r1 []).map (fun kv =>
          (kv.1, (["Query Description", c1] : List String).zip
            ((["Query Description", c1] : List String).map
              (fun f => rowGetD kv.2 f "")))) :=
    readRows_writeTable _ (by simp) _ rows1 nd1
  have keysRead : ((applyResults c1 r1 []).map (fun kv =>
        (kv.1, (["Query Description", c1] : List String).zip
          ((["Query Description", c1] : List String).map
            (fun f => rowGetD kv.2 f ""))))).map Prod.fst
      = (applyResults c1 r1 []).map Prod.fst := by
    simp
  have rowsRead : ∀ kv ∈ (applyResults c1 r1 []).map (fun kv =>
        (kv.1, (["Query Description", c1] : List String).zip
          ((["Query Description", c1] : List String).map
            (fun f => rowGetD kv.2 f "")))),
      rowGet kv.2 "Query Description" = some kv.1 := by
    intro kv hkv
    obtain ⟨kv0, hkv0, he⟩ := List.mem_map.mp hkv
    subst he
    show pyGet ((["Query Description", c1] : List String).zip
      ((["Query Description", c1] : List String).map
        (fun f => rowGetD kv0.2 f ""))) "Query Description" = some kv0.1
    rw [pyGet_zip_map, if_pos (by simp)]
    have : rowGetD kv0.2 "Query Description" "" = kv0.1 := by
      unfold rowGetD
      rw [rows1 kv0 hkv0]
      rfl
    rw [this]
  have ndRead : (((applyResults c1 r1 []).map (fun kv =>
        (kv.1, (["Query Description", c1] : List String).zip
          ((["Query Description", c1] : List String).map
            (fun f => rowGetD kv.2 f ""))))).map Prod.fst).Nodup := by
    rw [keysRead]; exact nd1
  obtain ⟨nd2, rows2, mem2, pres2⟩ :=
    applyResults_spec c2 h2 r2 _ ndRead rowsRead
  have hd1 : tableDescs (save_results_to_csv none c1 r1)
      = (applyResults c1 r1 []).map Prod.fst := by
    rw [e1]; exact tableDescs_writeTable _ (by simp) _ rows1
  have hd2 : tableDescs (save_results_to_csv (some (save_results_to_csv none c1 r1)) c2 r2)
      = (applyResults c2 r2 ((applyResults c1 r1 []).map (fun kv =>
          (kv.1, (["Query Description", c1] : List String).zip
            ((["Query Description", c1] : List String).map
              (fun f => rowGetD kv.2 f "")))))).map Prod.fst := by
    rw [e2, hread]; exact tableDescs_writeTable _ (by simp) _ rows2
  have hmemiff : ∀ d, d ∈ tableDescs (save_results_to_csv (some (save_results_to_csv none c1 r1)) c2 r2)
      ↔ d ∈ r1.map QueryResult.description ∨ d ∈ r2.map QueryResult.description := by
    intro d
    rw [hd2, mem2 d, keysRead, mem1 d]
    simp
  have hcell : ∀ d, d ∈ (applyResults c1 r1 []).map Prod.fst →
      ∀ f, f ∈ (["Query Description", c1] : List String) → f ≠ c2 →
      tableCell (save_results_to_csv (some (save_results_to_csv none c1 r1)) c2 r2) d f
        = tableCell (save_results_to_csv none c1 r1) d f := by
    intro d hd f hf hfc2
    have hf2 : f ∈ (["Query Description", c1, c2] : List String) := by
      rcases List.mem_cons.mp hf with h | h
      · simp [h]
      · simp only [List.mem_singleton] at h
        simp [h]
    rw [e2, e1, hread,
      tableCell_writeTable _ (by simp) _ rows2 nd2 d f hf2,
      tableCell_writeTable _ (by simp) _ rows1 nd1 d f hf]
    have hpres := pres2 d f hfc2 (by rw [keysRead]; exact hd)
    obtain ⟨row1, hrow1⟩ := Option.isSome_iff_exists.mp
      ((pyGet_isSome_iff d (applyResults c1 r1 [])).mpr hd)
    have hRHS : (dataGet ((applyResults c1 r1 []).map (fun kv =>
          (kv.1, (["Query Description", c1] : List String).zip
            ((["Query Description", c1] : List String).map
              (fun g => rowGetD kv.2 g ""))))) d).bind (fun row => rowGet row f)
        = some (rowGetD row1 f "") := by
      show (pyGet ((applyResults c1 r1 []).map (fun kv =>
          (kv.1, (["Query Description", c1] : List String).zip
            ((["Query Description", c1] : List String).map
              (fun g => rowGetD kv.2 g ""))))) d).bind (fun row => rowGet row f)
        = some (rowGetD row1 f "")
      rw [pyGet_map_proj, hrow1]
      show pyGet ((["Query Description", c1] : List String).zip
          ((["Query Description", c1] : List String).map
            (fun g => rowGetD row1 g ""))) f
        = some (rowGetD row1 f "")
      rw [pyGet_zip_map, if_pos hf]
    rw [hRHS] at hpres
    have hpres2 : (pyGet (applyResults c2 r2 ((applyResults c1 r1 []).map (fun kv =>
          (kv.1, (["Query Description", c1] : List String).zip
            ((["Query Description", c1] : List String).map
              (fun g => rowGetD kv.2 g "")))))) d).bind (fun row => rowGet row f)
        = some (rowGetD row1 f "") := hpres
    show (pyGet (applyResults c2 r2 ((applyResults c1 r1 []).map (fun kv =>
        (kv.1, (["Query Description", c1] : List String).zip
          ((["Query Description", c1] : List String).map
            (fun g => rowGetD kv.2 g "")))))) d).map (fun row => rowGetD row f "")
      = (pyGet (applyResults c1 r1 []) d).map (fun row => rowGetD row f "")
    rw [hrow1]
    cases h2d : pyGet (applyResults c2 r2 ((applyResults c1 r1 []).map (fun kv =>
        (kv.1, (["Query Description", c1] : List String).zip
          ((["Query Description", c1] : List String).map
            (fun g => rowGetD kv.2 g "")))))) d with
    | none =>
      rw [h2d] at hpres2
      simp at hpres2
    | some row2 =>
      rw [h2d] at hpres2
      simp only [Option.some_bind] at hpres2
      simp only [Option.map_some']
      congr 1
      show (rowGet row2 f).getD "" = rowGetD row1 f ""
      rw [hpres2]
      rfl
  refine ⟨by rw [e1]; rfl, by rw [e2]; rfl, ?_, hmemiff, ?_⟩
  · rw [hd2]
    exact nd2
  · intro d hd
    rw [hd1] at hd
    refine ⟨?_, hcell d hd "Query Description" (by simp) (Ne.symm h2),
      hcell d hd c1 (by simp) h12⟩
    rw [hd2, mem2 d, keysRead]
    exact Or.inl hd

/-- Witness for C6 at concrete inputs: two runs with distinct run columns
merge into one two-data-column table with no loss. -/
theorem c6_witness :
    (save_results_to_csv none "applications_100"
        [QueryResult.mk "q1" "SUCCESS" "0.5"]).header
      = ["Query Description", "applications_100"]
    ∧ (save_results_to_csv (some (save_results_to_csv none "applications_100"
          [QueryResult.mk "q1" "SUCCESS" "0.5"])) "applications_200"
          [QueryResult.mk "q2" "ERROR" "0"]).header
      = ["Query Description", "applications_100", "applications_200"]
    ∧ (tableDescs (save_results_to_csv (some (save_results_to_csv none "applications_100"
          [QueryResult.mk "q1" "SUCCESS" "0.5"])) "applications_200"
          [QueryResult.mk "q2" "ERROR" "0"])).Nodup
    ∧ (∀ d, d ∈ tableDescs (save_results_to_csv (some (save_results_to_csv none "applications_100"
          [QueryResult.mk "q1" "SUCCESS" "0.5"])) "applications_200"
          [QueryResult.mk "q2" "ERROR" "0"])
        ↔ d ∈ [QueryResult.mk "q1" "SUCCESS" "0.5"].map QueryResult.description
          ∨ d ∈ [QueryResult.mk "q2" "ERROR" "0"].map QueryResult.description)
    ∧ (∀ d, d ∈ tableDescs (save_results_to_csv none "applications_100"
          [QueryResult.mk "q1" "SUCCESS" "0.5"]) →
        d ∈ tableDescs (save_results_to_csv (some (save_results_to_csv none "applications_100"
            [QueryResult.mk "q1" "SUCCESS" "0.5"])) "applications_200"
            [QueryResult.mk "q2" "ERROR" "0"])
        ∧ tableCell (save_results_to_csv (some (save_results_to_csv none "applications_100"
              [QueryResult.mk "q1" "SUCCESS" "0.5"])) "applications_200"
              [QueryResult.mk "q2" "ERROR" "0"]) d "Query Description"
          = tableCell (save_results_to_csv none "applications_100"
              [QueryResult.mk "q1" "SUCCESS" "0.5"]) d "Query Description"
        ∧ tableCell (save_results_to_csv (some (save_results_to_csv none "applications_100"
              [QueryResult.mk "q1" "SUCCESS" "0.5"])) "applications_200"
              [QueryResult.mk "q2" "ERROR" "0"]) d "applications_100"
          = tableCell (save_results_to_csv none "applications_100"
              [QueryResult.mk "q1" "SUCCESS" "0.5"]) d "applications_100") :=
  c6_csv_merge "applications_100" "applications_200"
    [QueryResult.mk "q1" "SUCCESS" "0.5"] [QueryResult.mk "q2" "ERROR" "0"]
    (by decide) (by decide) (by decide)

end DocDB
